import Mathlib

/-
Verification of the kiroclaw core against its natural-language specification.

The Python sources under src/tg_acp are shallowly embedded: Python strings
become `List Char`, SQLite's keyed table becomes a finite map, asyncio
mutex-protected critical sections become atomic state transitions, and the
wall clock / ISO timestamps become explicit parameters.  Every definition is
translated from the source file named in its doc comment.
-/

set_option maxRecDepth 100000
set_option maxHeartbeats 1000000

/-! ## Session store (src/tg_acp/session_store.py)

The SQLite table `sessions` has primary key (user_id, thread_id) and columns
session_id, workspace_path, model, created_at, updated_at.  We embed it as a
function from keys to optional rows.  `_now_iso()` timestamps are passed in
explicitly as the `now` argument. -/

/-- A stored row of the `sessions` table (all columns except the key). -/
structure SessionRow where
  session_id : String
  workspace_path : String
  model : String
  created_at : String
  updated_at : String
deriving DecidableEq, Repr

/-- The dataclass `SessionRecord` returned by `get_session`. -/
structure SessionRecord where
  user_id : Int
  thread_id : Int
  session_id : String
  workspace_path : String
  model : String
deriving DecidableEq, Repr

/-- The `sessions` table as a finite map keyed by the primary key. -/
def SessionDB : Type := Int × Int → Option SessionRow

namespace SessionStore

/-- Embeds `SessionStore.get_session`: SELECT by (user_id, thread_id); None if absent. -/
def get_session (db : SessionDB) (user_id thread_id : Int) : Option SessionRecord :=
  (db (user_id, thread_id)).map fun row =>
    { user_id := user_id, thread_id := thread_id, session_id := row.session_id,
      workspace_path := row.workspace_path, model := row.model }

/-- Embeds `SessionStore.upsert_session`: INSERT .. ON CONFLICT DO UPDATE.  A fresh row
gets model 'auto' and created_at = updated_at = now; a conflicting row keeps its
created_at, replaces session_id and workspace_path, and resets model to 'auto'. -/
def upsert_session (db : SessionDB) (user_id thread_id : Int)
    (session_id workspace_path : String) (now : String) : SessionDB :=
  fun k =>
    if k = (user_id, thread_id) then
      some { session_id := session_id, workspace_path := workspace_path, model := "auto",
             created_at := (match db k with
               | some row => row.created_at
               | none => now),
             updated_at := now }
    else db k

/-- Embeds `SessionStore.set_model`: UPDATE sessions SET model, updated_at WHERE key.
Rows other than the key are untouched; an absent row stays absent (no-op). -/
def set_model (db : SessionDB) (user_id thread_id : Int) (model now : String) : SessionDB :=
  fun k =>
    if k = (user_id, thread_id) then
      (db k).map fun row => { row with model := model, updated_at := now }
    else db k

/-- Embeds `SessionStore.get_model`: SELECT model WHERE key; 'auto' if no row exists. -/
def get_model (db : SessionDB) (user_id thread_id : Int) : String :=
  match db (user_id, thread_id) with
  | none => "auto"
  | some row => row.model

/-- Embeds `SessionStore.delete_session`: DELETE WHERE key. -/
def delete_session (db : SessionDB) (user_id thread_id : Int) : SessionDB :=
  fun k => if k = (user_id, thread_id) then none else db k

end SessionStore

/-! ## ACP client state machine (src/tg_acp/acp_client.py)

The client's protocol state machine and the prelude of each operation — the
state check (which raises before anything is written to the subprocess) and
the first JSON-RPC method written to stdin.  Each operation is embedded as a
function from the current state to either the raised error message
(`Except.error`, nothing sent) or the method sent together with the state the
client is in at the moment of the send. -/

/-- Embeds `ACPClientState`: the protocol state machine states. -/
inductive ACPClientState where
  | IDLE
  | INITIALIZING
  | READY
  | BUSY
  | DEAD
deriving DecidableEq, Repr

namespace ACPClientState

/-- How a state renders inside a Python f-string (`str(enum_member)`). -/
def pyName : ACPClientState → String
  | IDLE => "ACPClientState.IDLE"
  | INITIALIZING => "ACPClientState.INITIALIZING"
  | READY => "ACPClientState.READY"
  | BUSY => "ACPClientState.BUSY"
  | DEAD => "ACPClientState.DEAD"

end ACPClientState

namespace ACPClient

/-- Embeds `ACPClient.initialize` up to its send: raises unless IDLE, else moves to
INITIALIZING and sends the `initialize` request. -/
def initialize_start (s : ACPClientState) : Except String (String × ACPClientState) :=
  if s ≠ ACPClientState.IDLE then
    Except.error ("Cannot initialize in state " ++ s.pyName)
  else
    Except.ok ("initialize", ACPClientState.INITIALIZING)

/-- Embeds `ACPClient.session_new` up to its send: raises unless READY. -/
def session_new_start (s : ACPClientState) : Except String (String × ACPClientState) :=
  if s ≠ ACPClientState.READY then
    Except.error ("Cannot create session in state " ++ s.pyName)
  else
    Except.ok ("session/new", ACPClientState.READY)

/-- Embeds `ACPClient.session_load` up to its send: raises unless READY. -/
def session_load_start (s : ACPClientState) : Except String (String × ACPClientState) :=
  if s ≠ ACPClientState.READY then
    Except.error ("Cannot load session in state " ++ s.pyName)
  else
    Except.ok ("session/load", ACPClientState.READY)

/-- Embeds `ACPClient.session_prompt` up to its send: raises unless READY, else moves
to BUSY and sends the `session/prompt` request. -/
def session_prompt_start (s : ACPClientState) : Except String (String × ACPClientState) :=
  if s ≠ ACPClientState.READY then
    Except.error ("Cannot prompt in state " ++ s.pyName)
  else
    Except.ok ("session/prompt", ACPClientState.BUSY)

/-- Embeds `ACPClient.session_set_model` up to its send: the source performs no state
check at all — it sends the `session/set_model` request in whatever state the
client is in. -/
def session_set_model_start (s : ACPClientState) : Except String (String × ACPClientState) :=
  Except.ok ("session/set_model", s)

end ACPClient

/-! ## ACP client prompt streaming (src/tg_acp/acp_client.py)

`_read_stdout` routes each incoming stdout message: a response resolves the
pending future for its id, a server-initiated request is only logged, a
notification is appended to the FIFO notification queue.  `session_prompt`
then loops: at the top of each iteration it tests `future.done()` and, if
true, yields the synthetic TurnEnd update and returns; otherwise it takes the
next queued notification (yielding it when its method is "session/update").

We embed the scenario of spec §8 example 5: the reader processes a batch of
buffered stdout lines in one scheduling tick, then the consumer loop runs with
no further reader activity.  `prompt_loop` is the consumer's yield sequence
from a snapshot of (notification queue, future done?); an empty queue with the
future unresolved blocks forever and thus yields nothing further. -/

/-- The `params.update` object of a `session/update` notification. -/
structure SessionUpdate where
  sessionUpdate : String
  contentText : Option String
deriving DecidableEq, Repr

/-- Embeds `TURN_END`: the synthetic update type emitted by the client. -/
def TURN_END : String := "TurnEnd"

/-- The synthetic terminal update `{"sessionUpdate": TURN_END, "content": None}`. -/
def turnEndUpdate : SessionUpdate :=
  { sessionUpdate := TURN_END, contentText := none }

/-- One parsed JSON-RPC message read from the subprocess stdout. -/
inductive StdoutMsg where
  | response (id : Nat)
  | serverRequest (id : Nat) (method : String)
  | notif (method : String) (update : SessionUpdate)
deriving DecidableEq, Repr

/-- Embeds `ACPClient._read_stdout` routing a batch of stdout messages in one tick:
responses for the prompt's request id resolve its future, other responses are
dropped as unexpected, server-initiated requests are only logged, and
notifications are enqueued in arrival order.  Returns the notification queue
contents and whether the prompt's future is resolved. -/
def read_stdout_route (rid : Nat) (msgs : List StdoutMsg) :
    List (String × SessionUpdate) × Bool :=
  msgs.foldl
    (fun acc m =>
      match m with
      | StdoutMsg.response i => if i = rid then (acc.1, true) else acc
      | StdoutMsg.serverRequest _ _ => acc
      | StdoutMsg.notif method upd => (acc.1 ++ [(method, upd)], acc.2))
    ([], false)

/-- The yield sequence of `ACPClient.session_prompt`'s while-loop from a
snapshot of the notification queue and the future, with no further reader
activity.  Mirrors the source: the `future.done()` test comes FIRST in every
iteration, so a resolved future short-circuits to TurnEnd even when
notifications are still queued. -/
def prompt_loop (futureDone : Bool) : List (String × SessionUpdate) → List SessionUpdate
  | [] => if futureDone then [turnEndUpdate] else []
  | (method, upd) :: rest =>
    if futureDone then [turnEndUpdate]
    else (if method = "session/update" then [upd] else []) ++ prompt_loop futureDone rest

/-- Updates yielded by `session_prompt` when the reader processes the whole
batch `msgs` (notifications and the prompt's response) before the consumer
loop resumes — the "same scheduling tick" scenario. -/
def session_prompt_updates (rid : Nat) (msgs : List StdoutMsg) : List SessionUpdate :=
  let routed := read_stdout_route rid msgs
  prompt_loop routed.2 routed.1

/-- An `agent_message_chunk` notification carrying the given text. -/
def chunkNotif (text : String) : StdoutMsg :=
  StdoutMsg.notif "session/update"
    { sessionUpdate := "agent_message_chunk", contentText := some text }

/-! ## Stream writer message splitting (src/tg_acp/stream_writer.py)

Python strings are embedded as `List Char`.  The regex
`<(/?)(\w+)(?:\s[^>]*)?>` is embedded as a deterministic character scanner
(`matchTag`); for the ASCII inputs produced by chatgpt-md-converter the
Python Unicode classes \w and \s coincide with the ASCII tests used here.
`str.rfind(sub, start, end)` searches the half-open slice [start, end). -/

/-- Embeds `MSG_LIMIT`: Telegram message character limit. -/
def MSG_LIMIT : Nat := 4096

/-- Embeds `NEWLINE_SEARCH_TAIL`: look for a newline in the last N chars when splitting. -/
def NEWLINE_SEARCH_TAIL : Nat := 200

/-- Embeds `INLINE_TAGS`: tags produced by chatgpt-md-converter that are inline. -/
def INLINE_TAGS : List (List Char) :=
  [['b'], ['i'], ['c', 'o', 'd', 'e'], ['u'], ['s'], ['a']]

/-- Embeds `BLOCK_TAGS`: block-level tags (preformatted and blockquote). -/
def BLOCK_TAGS : List (List Char) :=
  [['p', 'r', 'e'], ['b', 'l', 'o', 'c', 'k', 'q', 'u', 'o', 't', 'e']]

/-- ASCII embedding of the regex class \w (word character). -/
def isWordChar (c : Char) : Bool :=
  c.isAlpha || c.isDigit || c = '_'

/-- ASCII embedding of the regex class \s (whitespace). -/
def isSpaceChar (c : Char) : Bool :=
  c = ' ' || c = '\t' || c = '\n' || c = '\r' || c = '\x0b' || c = '\x0c'

/-- Match the tag regex `<(/?)(\w+)(?:\s[^>]*)?>` at the head of the list.
Returns (is_close, lowercased tag name, length of the matched text).  After the
maximal run of word characters the regex accepts either an immediate '>' or a
whitespace character followed by everything up to (and then including) the
next '>'. -/
def matchTag (l : List Char) : Option (Bool × List Char × Nat) :=
  match l with
  | '<' :: rest =>
    let isClose := match rest with
      | '/' :: _ => true
      | _ => false
    let rest1 := if isClose then rest.drop 1 else rest
    let name := rest1.takeWhile isWordChar
    if name.isEmpty then none
    else
      let headLen := 1 + (if isClose then 1 else 0) + name.length
      match rest1.drop name.length with
      | '>' :: _ => some (isClose, name.map Char.toLower, headLen + 1)
      | c :: r =>
        if isSpaceChar c then
          let attrs := r.takeWhile (fun a => a ≠ '>')
          match r.drop attrs.length with
          | '>' :: _ => some (isClose, name.map Char.toLower, headLen + 1 + attrs.length + 1)
          | _ => none
        else none
      | [] => none
  | _ => none

/-- The scanning loop of `re.finditer` combined with the stack walk of
`_open_tags_at`: fuel-bounded left-to-right scan; a match advances past the
matched text, a non-match advances one character.  Unknown tag names are
skipped (the loop's `continue`), a close tag pops the stack only when it
matches the top, an open tag pushes (name, absolute position).  The Python
list-as-stack (top at the end) is kept.  `fuel ≥ l.length` makes the bound
inert, since every step consumes at least one character. -/
def open_tags_scan (fuel : Nat) (l : List Char) (pos : Nat)
    (stack : List (List Char × Nat)) : List (List Char × Nat) :=
  match fuel with
  | 0 => stack
  | fuel + 1 =>
    match l with
    | [] => stack
    | _ :: tail =>
      match matchTag l with
      | some (isClose, tagName, len) =>
        let stack1 :=
          if ¬ (INLINE_TAGS.contains tagName || BLOCK_TAGS.contains tagName) then stack
          else if isClose then
            match stack.getLast? with
            | some (top, _) => if top = tagName then stack.dropLast else stack
            | none => stack
          else stack ++ [(tagName, pos)]
        open_tags_scan fuel (l.drop len) (pos + len) stack1
      | none => open_tags_scan fuel tail (pos + 1) stack

/-- Embeds `_open_tags_at`: stack of (tag name, open position) for the tags still open
at the end of the string. -/
def open_tags_at (html : List Char) : List (List Char × Nat) :=
  open_tags_scan html.length html 0 []

/-- Embeds `_close_tags`: closing tags for the open stack, innermost first. -/
def close_tags (open_tags : List (List Char × Nat)) : List Char :=
  (open_tags.reverse.map fun nt => '<' :: '/' :: nt.1 ++ ['>']).flatten

/-- Embeds `_reopen_tags`: re-extract each opening tag (with its attributes) from the
original string at its recorded position; fall back to a bare tag when the
regex does not match there. -/
def reopen_tags (open_tags : List (List Char × Nat)) (original : List Char) : List Char :=
  (open_tags.map fun nt =>
    match matchTag (original.drop nt.2) with
    | some (_, _, len) => (original.drop nt.2).take len
    | none => '<' :: nt.1 ++ ['>']).flatten

/-- One step of the right-find scan: advance the running index, remembering the
index whenever the sought character is seen (so the last hit wins). -/
def rfindStep (c : Char) (acc : Nat × Option Nat) (ch : Char) : Nat × Option Nat :=
  (acc.1 + 1, if ch = c then some acc.1 else acc.2)

/-- Embeds `str.rfind(c, start, stop)` for a single character: highest index i with
start ≤ i < stop and text[i] = c, as an Option (Python returns -1 if none). -/
def rfindChar (text : List Char) (c : Char) (start stop : Nat) : Option Nat :=
  ((((text.drop start).take (stop - start)).foldl (rfindStep c) (0, none)).2).map
    (fun i => start + i)

/-- The shared candidate-boundary computation: the last newline in the
NEWLINE_SEARCH_TAIL-char window before MSG_LIMIT, breaking after it when its
index is positive; otherwise a hard break at MSG_LIMIT. -/
def candidateBoundary (text : List Char) : Nat :=
  match rfindChar text '\n' (MSG_LIMIT - NEWLINE_SEARCH_TAIL) MSG_LIMIT with
  | some p => if p > 0 then p + 1 else MSG_LIMIT
  | none => MSG_LIMIT

/-- The while-loop of `_split_message`, structurally recursive on the length of
the remaining text: a short remainder is the final segment; otherwise cut at
the candidate boundary and continue on the tail. -/
def split_message_loop (remaining : List Char) : List (List Char) :=
  if remaining.isEmpty then []
  else if remaining.length ≤ MSG_LIMIT then [remaining]
  else
    remaining.take (candidateBoundary remaining) ::
      split_message_loop (remaining.drop (candidateBoundary remaining))
termination_by remaining.length
decreasing_by
  simp only [List.length_drop]
  have hb : 1 ≤ candidateBoundary remaining := by
    unfold candidateBoundary
    cases rfindChar remaining '\n' (MSG_LIMIT - NEWLINE_SEARCH_TAIL) MSG_LIMIT with
    | none => simp [MSG_LIMIT]
    | some p =>
      simp only
      split <;> simp [MSG_LIMIT]
  omega

/-- Embeds `_split_message`: split plain text into segments of at most MSG_LIMIT
characters, preferring newline boundaries. -/
def split_message (text : List Char) : List (List Char) :=
  if text.length ≤ MSG_LIMIT then [text]
  else split_message_loop text

/-- The decision step of `_find_split_point` given the candidate boundary and
the open-tag stack there: no open tags splits at the boundary; an innermost
inline tag not enclosed by a block tag and at positive position backtracks to
just before it (with an empty stack); otherwise the boundary is kept together
with the open stack for close/reopen. -/
def fsp_choose (boundary : Nat) (openTags : List (List Char × Nat)) :
    Nat × List (List Char × Nat) :=
  if openTags.isEmpty then (boundary, [])
  else
    match openTags.getLast? with
    | some nt =>
      if INLINE_TAGS.contains nt.1
          ∧ ¬ (openTags.any fun t => BLOCK_TAGS.contains t.1)
          ∧ nt.2 > 0 then
        (nt.2, [])
      else (boundary, openTags)
    | none => (boundary, openTags)

/-- Embeds `_find_split_point`: candidate boundary, then the open-tag analysis on the
text before it. -/
def find_split_point (html : List Char) : Nat × List (List Char × Nat) :=
  if html.length ≤ MSG_LIMIT then (html.length, [])
  else fsp_choose (candidateBoundary html) (open_tags_at (html.take (candidateBoundary html)))

/-- The split position and open-tag stack actually used by one `_split_html`
iteration: `_find_split_point`, then the safety clamp — a split position of 0
(no progress possible) forces a hard break at MSG_LIMIT with the open-tags
analysis re-run on that hard slice. -/
def split_html_cut (remaining : List Char) : Nat × List (List Char × Nat) :=
  if (find_split_point remaining).1 = 0 then
    (MSG_LIMIT, open_tags_at (remaining.take MSG_LIMIT))
  else find_split_point remaining

/-- The (segment, rest) pair emitted by one `_split_html` iteration from the
chosen cut: with open tags at the cut, the closing tags are appended to the
segment and the reopening tags (re-extracted from the current remainder) are
put in front of the rest. -/
def split_html_emit (remaining : List Char) (cut : Nat × List (List Char × Nat)) :
    List Char × List Char :=
  if cut.2.isEmpty then (remaining.take cut.1, remaining.drop cut.1)
  else
    (remaining.take cut.1 ++ close_tags cut.2,
      reopen_tags cut.2 remaining ++ remaining.drop cut.1)

/-- The while-loop of `_split_html`, fuel-bounded: `_split_html` can fail to
make progress when the reopened tags are as long as the consumed text (the
Python loop then runs forever), so the recursion carries explicit fuel; on all
inputs where the Python loop terminates within `fuel` iterations the two
agree. -/
def split_html_loop (fuel : Nat) (remaining : List Char) : List (List Char) :=
  match fuel with
  | 0 => []
  | fuel + 1 =>
    if remaining.isEmpty then []
    else if remaining.length ≤ MSG_LIMIT then [remaining]
    else
      (split_html_emit remaining (split_html_cut remaining)).1 ::
        split_html_loop fuel (split_html_emit remaining (split_html_cut remaining)).2

/-- Embeds `_split_html`: split HTML into segments, backtracking before inline tags
and closing/reopening block tags at the boundary.  Fuel `html.length` covers
every terminating run of the Python loop on these inputs, since each
iteration of interest consumes at least one character of the original text. -/
def split_html (html : List Char) : List (List Char) :=
  if html.length ≤ MSG_LIMIT then [html]
  else split_html_loop html.length html

/-- Claim-side notion (from the spec's words, not the source): a text "parses
as well-formed inline markup" when scanning its tags with the same tag regex
leaves a balanced picture — every close tag of a known inline/block tag
matches the innermost open one, and no known tag stays open at the end.
Unknown tag names are ignored, as the source's tag walker ignores them. -/
def wellFormedScan (fuel : Nat) (l : List Char) (stack : List (List Char)) : Bool :=
  match fuel with
  | 0 => stack.isEmpty
  | fuel + 1 =>
    match l with
    | [] => stack.isEmpty
    | _ :: tail =>
      match matchTag l with
      | some (isClose, tagName, len) =>
        if ¬ (INLINE_TAGS.contains tagName || BLOCK_TAGS.contains tagName) then
          wellFormedScan fuel (l.drop len) stack
        else if isClose then
          match stack with
          | top :: stack1 => if top = tagName then wellFormedScan fuel (l.drop len) stack1 else false
          | [] => false
        else
          wellFormedScan fuel (l.drop len) (tagName :: stack)
      | none => wellFormedScan fuel tail stack

/-- A text parses as well-formed inline markup (claim-side definition). -/
def wellFormedInline (l : List Char) : Bool :=
  wellFormedScan l.length l []

def c4_tail : List Char := ['<', 'b', '>', 'y', '<', '/', 'b', '>']

def c4_input : List Char := List.replicate 4094 'x' ++ c4_tail

def c5_head : List Char := ['<', 'p', 'r', 'e', '>']

def c5_close : List Char := ['<', '/', 'p', 'r', 'e', '>']

def c5_input : List Char := c5_head ++ (List.replicate 4100 'x' ++ c5_close)

def c6_input : List Char := List.replicate 4096 'x' ++ '\n' :: List.replicate 200 'y'

def c6_tail : List Char := List.replicate 200 'x' ++ '\n' :: List.replicate 200 'y'

/-! ## Process pool (src/tg_acp/process_pool.py)

Python dicts become insertion-ordered association lists (`dictSet` replaces in
place keeping the position, `dictRemove` filters the key out), matching dict
iteration order.  An `ACPClient` handle inside a slot is abstracted to
`Option Bool`: `none` is the spawn placeholder's missing client and
`some alive` records what `is_alive()` returns.  `time.time()` and the spawn
outcome are explicit parameters (`now`, `spawn_ok`).  Every `async with
self._lock:` critical section of the source contains no await point, so each
pool operation is embedded as one atomic state transition; `acquire` performs
its subprocess spawn outside the lock, and its embedding covers the whole
call including the relock cleanup on spawn failure.  Slots are compared by
value, as Python dataclass equality does. -/

/-- Look up a key in an insertion-ordered association list (dict access). -/
def dictGet {κ α : Type} [BEq κ] (d : List (κ × α)) (k : κ) : Option α :=
  (d.find? (fun e => e.1 == k)).map (fun e => e.2)

/-- Dict membership test (`k in d`). -/
def dictContains {κ α : Type} [BEq κ] (d : List (κ × α)) (k : κ) : Bool :=
  d.any (fun e => e.1 == k)

/-- Dict assignment `d[k] = v`: replace in place keeping the position when the
key exists, else append. -/
def dictSet {κ α : Type} [BEq κ] (d : List (κ × α)) (k : κ) (v : α) : List (κ × α) :=
  if dictContains d k then d.map (fun e => if e.1 == k then (k, v) else e)
  else d ++ [(k, v)]

/-- Dict deletion `del d[k]` / `d.pop(k, None)`. -/
def dictRemove {κ α : Type} [BEq κ] (d : List (κ × α)) (k : κ) : List (κ × α) :=
  d.filter (fun e => ¬ (e.1 == k))

/-- Embeds `SlotStatus`: a pool slot is idle or busy. -/
inductive SlotStatus where
  | IDLE
  | BUSY
deriving DecidableEq, Repr

/-- Embeds `ProcessSlot`: one kiro-cli process in the pool.  `client` is `none` for a
spawn placeholder and `some alive` for an attached client whose `is_alive()`
returns `alive`. -/
structure ProcessSlot where
  slot_id : Nat
  client : Option Bool
  status : SlotStatus
  last_used : Int
  user_id : Option Nat
  session_id : Option String
  thread_id : Option Nat
deriving DecidableEq, Repr

/-- Embeds `QueuedRequest`: a request waiting for a free process slot. -/
structure QueuedRequest where
  thread_id : Nat
  user_id : Nat
  message_text : String
  files : List String
  chat_id : Int
  workspace_path : String
deriving DecidableEq, Repr

/-- Embeds `InFlightRequest`: tracks an active request; `cancelled` mirrors
`cancel_event.is_set()`. -/
structure InFlightRequest where
  thread_id : Nat
  slot_id : Nat
  cancelled : Bool
deriving DecidableEq, Repr

/-- Embeds `RequestQueue`: mapping thread_id → request plus the FIFO order of thread
ids. -/
structure RequestQueue where
  queue : List (Nat × QueuedRequest)
  order : List Nat
deriving DecidableEq, Repr

namespace RequestQueue

/-- Embeds `RequestQueue.enqueue`: replace in place for an existing thread_id (keeping
its FIFO position), else append. -/
def enqueue (q : RequestQueue) (request : QueuedRequest) : RequestQueue :=
  if dictContains q.queue request.thread_id then
    { q with queue := dictSet q.queue request.thread_id request }
  else
    { queue := dictSet q.queue request.thread_id request
      order := q.order ++ [request.thread_id] }

/-- Embeds `RequestQueue.dequeue`: pop the oldest thread id and its request.  On a
well-formed queue the popped id is always in the mapping (Python would raise
KeyError otherwise). -/
def dequeue (q : RequestQueue) : Option QueuedRequest × RequestQueue :=
  match q.order with
  | [] => (none, q)
  | thread_id :: rest =>
    (dictGet q.queue thread_id, { queue := dictRemove q.queue thread_id, order := rest })

/-- Embeds `RequestQueue.dequeue_by_thread`: remove and return a named entry,
preserving the order of the rest; `none` (and no mutation) when absent. -/
def dequeue_by_thread (q : RequestQueue) (thread_id : Nat) :
    Option QueuedRequest × RequestQueue :=
  if ¬ dictContains q.queue thread_id then (none, q)
  else
    (dictGet q.queue thread_id,
     { queue := dictRemove q.queue thread_id, order := q.order.erase thread_id })

end RequestQueue

/-- Embeds `InFlightTracker`: thread_id → in-flight record. -/
structure InFlightTracker where
  active : List (Nat × InFlightRequest)
deriving DecidableEq, Repr

namespace InFlightTracker

/-- Embeds `InFlightTracker.track`: fresh (unset) cancel event, overwriting any prior
record for the thread. -/
def track (tr : InFlightTracker) (thread_id slot_id : Nat) : InFlightTracker :=
  { active := dictSet tr.active thread_id
      { thread_id := thread_id, slot_id := slot_id, cancelled := false } }

/-- Embeds `InFlightTracker.cancel`: set the cancel event if tracked (no-op
otherwise). -/
def cancel (tr : InFlightTracker) (thread_id : Nat) : InFlightTracker :=
  { active := tr.active.map (fun e =>
      if e.1 == thread_id then (e.1, { e.2 with cancelled := true }) else e) }

/-- Embeds `InFlightTracker.untrack`: drop the record for the thread. -/
def untrack (tr : InFlightTracker) (thread_id : Nat) : InFlightTracker :=
  { active := dictRemove tr.active thread_id }

/-- The `if thread_id is not None: untrack` pattern of the release paths. -/
def untrack_opt (tr : InFlightTracker) (thread_id : Option Nat) : InFlightTracker :=
  match thread_id with
  | some t => tr.untrack t
  | none => tr

end InFlightTracker

/-- Embeds `ProcessPool`'s mutable state: slots, queue, tracker, affinity map, and the
configuration the operations read. -/
structure PoolState where
  max_processes : Nat
  idle_timeout : Int
  slots : List ProcessSlot
  request_queue : RequestQueue
  in_flight : InFlightTracker
  session_affinity : List ((Nat × Nat) × Nat)
deriving DecidableEq, Repr

namespace ProcessPool

/-- Update the first slot satisfying the predicate (the object Python's
`find`/iteration mutates in place). -/
def updateFirstWhere (p : ProcessSlot → Bool) (f : ProcessSlot → ProcessSlot) :
    List ProcessSlot → List ProcessSlot
  | [] => []
  | sl :: rest => if p sl then f sl :: rest else sl :: updateFirstWhere p f rest

/-- Embeds `max((s.slot_id for s in self.slots), default=-1) + 1`. -/
def newSlotId (slots : List ProcessSlot) : Nat :=
  match slots with
  | [] => 0
  | _ => (slots.map (fun sl => sl.slot_id)).foldl Nat.max 0 + 1

/-- The spawn placeholder slot inserted under the lock in acquire step 2b. -/
def spawn_placeholder (slot_id thread_id user_id : Nat) (now : Int) : ProcessSlot :=
  { slot_id := slot_id, client := none, status := SlotStatus.BUSY, last_used := now,
    user_id := some user_id, session_id := none, thread_id := some thread_id }

/-- The busy rebinding applied to a slot in acquire step 2a. -/
def bindSlot (user_id thread_id : Nat) (x : ProcessSlot) : ProcessSlot :=
  { x with
     status := SlotStatus.BUSY
     user_id := some user_id
     thread_id := some thread_id }

/-- Step 2 of `ProcessPool.acquire` (no usable affinity): grab an idle slot
owned by this user or unowned; else insert a placeholder and spawn when under
the limit (the spawn outcome is the `spawn_ok` parameter; on failure the
placeholder and its affinity entry are cleaned up under the relocked mutex);
else fail. -/
def acquire_step2 (s : PoolState) (thread_id user_id : Nat) (now : Int)
    (spawn_ok : Bool) : Option Nat × PoolState :=
  match s.slots.find? (fun sl => sl.status == SlotStatus.IDLE
      && (sl.user_id == none || sl.user_id == some user_id)) with
  | some sl =>
    (some sl.slot_id,
     { s with
        in_flight := s.in_flight.cancel thread_id
        slots := updateFirstWhere
          (fun x => x.status == SlotStatus.IDLE
            && (x.user_id == none || x.user_id == some user_id))
          (bindSlot user_id thread_id)
          s.slots
        session_affinity := dictSet s.session_affinity (user_id, thread_id) sl.slot_id })
  | none =>
    if s.slots.length < s.max_processes then
      if spawn_ok then
        (some (newSlotId s.slots),
         { s with
            slots := updateFirstWhere (fun x => x.slot_id == newSlotId s.slots)
              (fun x => { x with client := some true })
              (s.slots ++ [spawn_placeholder (newSlotId s.slots) thread_id user_id now])
            session_affinity :=
              dictSet s.session_affinity (user_id, thread_id) (newSlotId s.slots)
            in_flight := s.in_flight.cancel thread_id })
      else
        (none,
         if dictGet (dictSet s.session_affinity (user_id, thread_id) (newSlotId s.slots))
              (user_id, thread_id) == some (newSlotId s.slots) then
           { s with
              slots := (s.slots
                ++ [spawn_placeholder (newSlotId s.slots) thread_id user_id now]).erase
                  (spawn_placeholder (newSlotId s.slots) thread_id user_id now)
              session_affinity := dictRemove
                (dictSet s.session_affinity (user_id, thread_id) (newSlotId s.slots))
                (user_id, thread_id) }
         else
           { s with
              slots := (s.slots
                ++ [spawn_placeholder (newSlotId s.slots) thread_id user_id now]).erase
                  (spawn_placeholder (newSlotId s.slots) thread_id user_id now)
              session_affinity :=
                dictSet s.session_affinity (user_id, thread_id) (newSlotId s.slots) })
    else (none, s)

/-- Embeds `ProcessPool.acquire`: affinity lookup first (reuse an idle affinity slot,
bail out on a busy one, clear a stale entry), then step 2.  Returns the
acquired slot's id.  The whole call — including the out-of-lock spawn and its
failure cleanup — is one transition of this embedding. -/
def acquire (s : PoolState) (thread_id user_id : Nat) (now : Int) (spawn_ok : Bool) :
    Option Nat × PoolState :=
  match dictGet s.session_affinity (user_id, thread_id) with
  | some affinity_slot_id =>
    match s.slots.find? (fun sl => sl.slot_id == affinity_slot_id) with
    | none =>
      acquire_step2
        { s with session_affinity := dictRemove s.session_affinity (user_id, thread_id) }
        thread_id user_id now spawn_ok
    | some affinity_slot =>
      if affinity_slot.status == SlotStatus.IDLE then
        (some affinity_slot.slot_id,
         { s with
            in_flight := s.in_flight.cancel thread_id
            slots := updateFirstWhere (fun sl => sl.slot_id == affinity_slot_id)
              (fun sl => { sl with status := SlotStatus.BUSY, thread_id := some thread_id })
              s.slots })
      else
        (none, { s with in_flight := s.in_flight.cancel thread_id })
  | none => acquire_step2 s thread_id user_id now spawn_ok

/-- The in-place mutation `_release_inner` applies to a surviving slot. -/
def idleSlot (session_id : Option String) (thread_id : Option Nat) (now : Int)
    (x : ProcessSlot) : ProcessSlot :=
  { x with
     status := SlotStatus.IDLE
     last_used := now
     session_id := session_id
     thread_id := thread_id }

/-- Embeds `ProcessPool._release_inner` (run under the lock).  Returns the new pool
state together with the released slot object's value after the call (Python
mutates the slot in place; the caller's reference sees those updates). -/
def release_inner (s : PoolState) (slot : ProcessSlot) (session_id : Option String)
    (thread_id : Option Nat) (now : Int) : PoolState × ProcessSlot :=
  if ¬ s.slots.contains slot then
    ({ s with in_flight := s.in_flight.untrack_opt thread_id }, slot)
  else if slot.client == none || slot.client == some false then
    ({ s with
        slots := s.slots.erase slot
        session_affinity := s.session_affinity.filter (fun e => ¬ (e.2 == slot.slot_id))
        in_flight := s.in_flight.untrack_opt thread_id }, slot)
  else
    ({ s with
        slots := updateFirstWhere (fun x => x == slot)
          (idleSlot session_id thread_id now) s.slots
        in_flight := s.in_flight.untrack_opt thread_id },
     idleSlot session_id thread_id now slot)

/-- Embeds `ProcessPool.release`. -/
def release (s : PoolState) (slot : ProcessSlot) (session_id : Option String)
    (thread_id : Option Nat) (now : Int) : PoolState :=
  (release_inner s slot session_id thread_id now).1

/-- Priority 3 of `release_and_dequeue`: dequeue the FIFO head; a user
mismatch on a user-bound slot re-enqueues it (which appends at the tail) and
yields nothing. -/
def choose_fifo (q : RequestQueue) (slot1 : ProcessSlot) :
    Option QueuedRequest × RequestQueue :=
  match q.dequeue with
  | (none, q2) => (none, q2)
  | (some r, q2) =>
    match slot1.user_id with
    | some u => if r.user_id == u then (some r, q2) else (none, q2.enqueue r)
    | none => (some r, q2)

/-- The dequeue chosen by `release_and_dequeue` and the queue it leaves behind:
priority 1 takes the first affinity entry pointing at this slot (with a
compatible user) whose thread is queued; priority 2 the releasing thread
itself (only for user-bound slots); priority 3 the FIFO fallback. -/
def choose_next (q : RequestQueue) (slot1 : ProcessSlot)
    (affinity : List ((Nat × Nat) × Nat)) (thread_id : Option Nat) :
    Option QueuedRequest × RequestQueue :=
  match affinity.find? (fun e =>
      e.2 == slot1.slot_id
      && (slot1.user_id == none || some e.1.1 == slot1.user_id)
      && dictContains q.queue e.1.2) with
  | some e => q.dequeue_by_thread e.1.2
  | none =>
    match thread_id, slot1.user_id with
    | some t, some _ =>
      match q.dequeue_by_thread t with
      | (some r, q2) => (some r, q2)
      | (none, q2) => choose_fifo q2 slot1
    | _, _ => choose_fifo q slot1

/-- The busy rebinding `release_and_dequeue` applies to the slot it hands to
the dequeued request. -/
def rebindSlot (next_thread : Nat) (x : ProcessSlot) : ProcessSlot :=
  { x with
     status := SlotStatus.BUSY
     thread_id := some next_thread }

/-- Embeds `ProcessPool.release_and_dequeue`: release, and — still inside the same
critical section — pick the next request by the three-level priority, re-mark
the slot busy for it, record affinity if absent, and cancel any in-flight
stream of the dequeued thread. -/
def release_and_dequeue (s : PoolState) (slot : ProcessSlot) (session_id : Option String)
    (thread_id : Option Nat) (now : Int) :
    (Option QueuedRequest × Option Nat) × PoolState :=
  match release_inner s slot session_id thread_id now with
  | (s1, slot1) =>
    if ¬ s1.slots.contains slot1 ∨ ¬ (slot1.status == SlotStatus.IDLE) then
      ((none, none), s1)
    else
      match choose_next s1.request_queue slot1 s1.session_affinity thread_id with
      | (none, q3) => ((none, none), { s1 with request_queue := q3 })
      | (some r, q3) =>
        ((some r, some slot1.slot_id),
         { s1 with
            request_queue := q3
            slots := updateFirstWhere (fun x => x == slot1)
              (rebindSlot r.thread_id) s1.slots
            session_affinity :=
              if dictContains s1.session_affinity (r.user_id, r.thread_id) then
                s1.session_affinity
              else dictSet s1.session_affinity (r.user_id, r.thread_id) slot1.slot_id
            in_flight := s1.in_flight.cancel r.thread_id })

/-- One pass of `ProcessPool._reaper_loop`'s body: collect idle slots past the
timeout while the scan's running count keeps at least one slot alive, then
remove each and erase every affinity entry pointing at it. -/
def reaper_pass (s : PoolState) (now : Int) : PoolState :=
  (s.slots.foldl
    (fun acc sl =>
      if sl.status = SlotStatus.IDLE ∧ now - sl.last_used > s.idle_timeout
          ∧ s.slots.length - acc.length > 1 then
        acc ++ [sl]
      else acc)
    ([] : List ProcessSlot)).foldl
    (fun st sl =>
      { st with
         slots := st.slots.erase sl
         session_affinity := st.session_affinity.filter (fun e => ¬ (e.2 == sl.slot_id)) })
    s

/-- Embeds `ProcessPool.shutdown`: kill every live client and clear the slot list.
The affinity map is left untouched by the source. -/
def shutdown (s : PoolState) : PoolState :=
  { s with slots := [] }

/-- The affinity invariant of spec §3 as a decidable check: every affinity
entry points at a slot id present in the pool's slot list. -/
def affinity_ok (s : PoolState) : Bool :=
  s.session_affinity.all (fun e => s.slots.any (fun sl => sl.slot_id == e.2))

end ProcessPool

/-- A small queued request used by the concrete pool states below. -/
def sampleRequest (t u : Nat) : QueuedRequest :=
  { thread_id := t, user_id := u, message_text := "hello", files := [], chat_id := 7,
    workspace_path := "/ws" }

/-- A live idle slot bound to user 1, used by the shutdown counterexample. -/
def c2_slot : ProcessSlot :=
  { slot_id := 0, client := some true, status := SlotStatus.IDLE, last_used := 0,
    user_id := some 1, session_id := none, thread_id := none }

/-- A pool with one slot and one affinity entry pointing at it. -/
def c2_pool : PoolState :=
  { max_processes := 2, idle_timeout := 100, slots := [c2_slot],
    request_queue := { queue := [], order := [] },
    in_flight := { active := [] },
    session_affinity := [((1, 42), 0)] }

/-- A live busy slot bound to user 3, releasing thread 99. -/
def c3_slot : ProcessSlot :=
  { slot_id := 0, client := some true, status := SlotStatus.BUSY, last_used := 0,
    user_id := some 3, session_id := none, thread_id := some 99 }

/-- Two different users queued behind a slot bound to a third user. -/
def c3_pool : PoolState :=
  { max_processes := 2, idle_timeout := 100, slots := [c3_slot],
    request_queue := { queue := [(1, sampleRequest 1 1), (2, sampleRequest 2 2)],
                       order := [1, 2] },
    in_flight := { active := [] },
    session_affinity := [((3, 99), 0)] }

/-- One queued request whose affinity points at the releasing slot. -/
def c9_pool : PoolState :=
  { max_processes := 2, idle_timeout := 100, slots := [c3_slot],
    request_queue := { queue := [(7, sampleRequest 7 3)], order := [7] },
    in_flight := { active := [] },
    session_affinity := [((3, 99), 0), ((3, 7), 0)] }

/-! ## Proofs -/

theorem matchTag_cons_ne {c : Char} (hc : c ≠ '<') (l : List Char) :
    matchTag (c :: l) = none := by
  unfold matchTag
  split
  · rename_i heq
    cases heq
    exact absurd rfl hc
  · rfl

theorem foldl_rfindStep_replicate {a c : Char} (hc : a ≠ c) (n : Nat) (i : Nat)
    (r : Option Nat) :
    List.foldl (rfindStep c) (i, r) (List.replicate n a) = (i + n, r) := by
  induction n generalizing i with
  | zero => simp
  | succ k ih =>
    rw [List.replicate_succ, List.foldl_cons]
    simp only [rfindStep, if_neg hc]
    rw [ih]
    have h1 : i + 1 + k = i + (k + 1) := by omega
    rw [h1]

theorem open_tags_scan_replicate {c : Char} (hc : c ≠ '<') (n : Nat) :
    ∀ (fuel pos : Nat) (rest : List Char) (stack : List (List Char × Nat)),
    open_tags_scan (n + fuel) (List.replicate n c ++ rest) pos stack
      = open_tags_scan fuel rest (pos + n) stack := by
  induction n with
  | zero => intro fuel pos rest stack; simp
  | succ k ih =>
    intro fuel pos rest stack
    rw [List.replicate_succ, List.cons_append]
    have h0 : k + 1 + fuel = (k + fuel) + 1 := by omega
    rw [h0, open_tags_scan, matchTag_cons_ne hc]
    simp only
    rw [ih]
    have h1 : pos + 1 + k = pos + (k + 1) := by omega
    rw [h1]

theorem open_tags_scan_nil (fuel pos : Nat) (stack : List (List Char × Nat)) :
    open_tags_scan fuel [] pos stack = stack := by
  cases fuel <;> rfl

theorem c4_len : c4_input.length = 4102 := by
  rw [c4_input, List.length_append, List.length_replicate]
  decide

theorem c4_boundary : candidateBoundary c4_input = 4096 := by
  have hsplit : c4_input = List.replicate 3896 'x' ++ (List.replicate 198 'x' ++ c4_tail) := by
    rw [c4_input, ← List.append_assoc, ← List.replicate_add]
  have hdrop : (List.replicate 3896 'x' ++ (List.replicate 198 'x' ++ c4_tail)).drop 3896
      = List.replicate 198 'x' ++ c4_tail :=
    List.drop_left' (by rw [List.length_replicate])
  have hsplit2 : List.replicate 198 'x' ++ c4_tail
      = (List.replicate 198 'x' ++ ['<', 'b']) ++ ['>', 'y', '<', '/', 'b', '>'] := by
    rw [List.append_assoc]
    rfl
  have htake : ((List.replicate 198 'x' ++ ['<', 'b']) ++ ['>', 'y', '<', '/', 'b', '>']).take 200
      = List.replicate 198 'x' ++ ['<', 'b'] :=
    List.take_left' (by rw [List.length_append, List.length_replicate]; rfl)
  unfold candidateBoundary rfindChar
  rw [show MSG_LIMIT - NEWLINE_SEARCH_TAIL = 3896 from rfl]
  rw [show MSG_LIMIT = 4096 from rfl]
  rw [hsplit, hdrop]
  rw [show (4096 - 3896 : Nat) = 200 from rfl]
  rw [hsplit2, htake]
  rw [List.foldl_append, foldl_rfindStep_replicate (by decide)]
  rfl

theorem c4_take : c4_input.take 4096 = List.replicate 4094 'x' ++ ['<', 'b'] := by
  have hsplit : c4_input
      = (List.replicate 4094 'x' ++ ['<', 'b']) ++ ['>', 'y', '<', '/', 'b', '>'] := by
    rw [c4_input, List.append_assoc]
    rfl
  rw [hsplit]
  exact List.take_left' (by rw [List.length_append, List.length_replicate]; rfl)

theorem c4_drop : c4_input.drop 4096 = ['>', 'y', '<', '/', 'b', '>'] := by
  have hsplit : c4_input
      = (List.replicate 4094 'x' ++ ['<', 'b']) ++ ['>', 'y', '<', '/', 'b', '>'] := by
    rw [c4_input, List.append_assoc]
    rfl
  rw [hsplit]
  exact List.drop_left' (by rw [List.length_append, List.length_replicate]; rfl)

theorem c4_open : open_tags_at (List.replicate 4094 'x' ++ ['<', 'b']) = [] := by
  unfold open_tags_at
  rw [List.length_append, List.length_replicate]
  rw [show (4094 + ['<', 'b'].length : Nat) = 4094 + 2 from rfl]
  rw [open_tags_scan_replicate (by decide)]
  rfl

theorem c4_fsp : find_split_point c4_input = (4096, []) := by
  unfold find_split_point
  rw [c4_len, if_neg (show ¬((4102 : Nat) ≤ MSG_LIMIT) by decide)]
  rw [c4_boundary, c4_take, c4_open]
  rfl

theorem c4_cut : split_html_cut c4_input = (4096, []) := by
  unfold split_html_cut
  rw [c4_fsp]
  rfl

theorem c4_emit : split_html_emit c4_input (4096, [])
    = (List.replicate 4094 'x' ++ ['<', 'b'], ['>', 'y', '<', '/', 'b', '>']) := by
  unfold split_html_emit
  rw [if_pos (show ([] : List (List Char × Nat)).isEmpty = true from rfl)]
  rw [c4_take, c4_drop]

theorem c4_empty : c4_input.isEmpty = false := by
  rw [c4_input]
  rfl

theorem c4_eval : split_html c4_input
    = [List.replicate 4094 'x' ++ ['<', 'b'], ['>', 'y', '<', '/', 'b', '>']] := by
  rw [split_html, if_neg (by rw [c4_len]; decide)]
  rw [c4_len]
  rw [show (4102 : Nat) = 4101 + 1 from rfl]
  rw [split_html_loop]
  rw [c4_empty, if_neg (show ¬(false = true) by decide)]
  rw [c4_len, if_neg (show ¬((4102 : Nat) ≤ MSG_LIMIT) by decide)]
  rw [c4_cut, c4_emit]
  rw [show (4101 : Nat) = 4100 + 1 from rfl]
  rw [split_html_loop]
  rfl

theorem wellFormedScan_replicate {c : Char} (hc : c ≠ '<') (n : Nat) :
    ∀ (fuel : Nat) (rest : List Char) (stack : List (List Char)),
    wellFormedScan (n + fuel) (List.replicate n c ++ rest) stack
      = wellFormedScan fuel rest stack := by
  induction n with
  | zero => intro fuel rest stack; simp
  | succ k ih =>
    intro fuel rest stack
    rw [List.replicate_succ, List.cons_append]
    have h0 : k + 1 + fuel = (k + fuel) + 1 := by omega
    rw [h0, wellFormedScan, matchTag_cons_ne hc]
    simp only
    rw [ih]

theorem c4_input_wf : wellFormedInline c4_input = true := by
  unfold wellFormedInline
  rw [c4_len, c4_input]
  rw [show (4102 : Nat) = 4094 + 8 from rfl]
  rw [wellFormedScan_replicate (by decide)]
  rfl

theorem c4_seg2_not_wf : wellFormedInline ['>', 'y', '<', '/', 'b', '>'] = false := by
  decide

theorem matchTag_pre (t : List Char) :
    matchTag ('<' :: 'p' :: 'r' :: 'e' :: '>' :: t) = some (false, ['p', 'r', 'e'], 5) := by
  rfl

theorem c5_len : c5_input.length = 4111 := by
  rw [c5_input, List.length_append, List.length_append, List.length_replicate]
  rfl

theorem c5_split1 : c5_input
    = (c5_head ++ List.replicate 4091 'x') ++ (List.replicate 9 'x' ++ c5_close) := by
  rw [c5_input, List.append_assoc, ← List.append_assoc (List.replicate 4091 'x'),
    ← List.replicate_add]

theorem c5_take : c5_input.take 4096 = c5_head ++ List.replicate 4091 'x' := by
  rw [c5_split1]
  exact List.take_left' (by rw [List.length_append, List.length_replicate]; rfl)

theorem c5_drop : c5_input.drop 4096 = List.replicate 9 'x' ++ c5_close := by
  rw [c5_split1]
  exact List.drop_left' (by rw [List.length_append, List.length_replicate]; rfl)

theorem c5_boundary : candidateBoundary c5_input = 4096 := by
  have hsplit : c5_input
      = (c5_head ++ List.replicate 3891 'x')
        ++ (List.replicate 200 'x' ++ (List.replicate 9 'x' ++ c5_close)) := by
    rw [c5_input, show (4100 : Nat) = 3891 + (200 + 9) from rfl, List.replicate_add,
      List.replicate_add]
    simp only [List.append_assoc]
  have hdrop : ((c5_head ++ List.replicate 3891 'x')
      ++ (List.replicate 200 'x' ++ (List.replicate 9 'x' ++ c5_close))).drop 3896
      = List.replicate 200 'x' ++ (List.replicate 9 'x' ++ c5_close) :=
    List.drop_left' (by rw [List.length_append, List.length_replicate]; rfl)
  have htake : (List.replicate 200 'x' ++ (List.replicate 9 'x' ++ c5_close)).take 200
      = List.replicate 200 'x' :=
    List.take_left' (by rw [List.length_replicate])
  unfold candidateBoundary rfindChar
  rw [show MSG_LIMIT - NEWLINE_SEARCH_TAIL = 3896 from rfl]
  rw [show MSG_LIMIT = 4096 from rfl]
  rw [hsplit, hdrop]
  rw [show (4096 - 3896 : Nat) = 200 from rfl]
  rw [htake]
  rw [foldl_rfindStep_replicate (by decide)]
  rfl

theorem c5_open : open_tags_at (c5_head ++ List.replicate 4091 'x')
    = [(['p', 'r', 'e'], 0)] := by
  unfold open_tags_at
  rw [List.length_append, List.length_replicate]
  rw [show (c5_head.length + 4091 : Nat) = 4096 from rfl]
  rw [show c5_head ++ List.replicate 4091 'x'
    = '<' :: 'p' :: 'r' :: 'e' :: '>' :: List.replicate 4091 'x' from rfl]
  rw [show (4096 : Nat) = 4095 + 1 from rfl]
  rw [open_tags_scan, matchTag_pre]
  simp only
  rw [show ('<' :: 'p' :: 'r' :: 'e' :: '>' :: List.replicate 4091 'x').drop 5
    = List.replicate 4091 'x' from rfl]
  show open_tags_scan 4095 (List.replicate 4091 'x') (0 + 5) [(['p', 'r', 'e'], 0)]
    = [(['p', 'r', 'e'], 0)]
  rw [show (4095 : Nat) = 4091 + 4 from rfl]
  rw [← List.append_nil (List.replicate 4091 'x')]
  rw [open_tags_scan_replicate (by decide)]
  rw [open_tags_scan_nil]

theorem c5_fsp : find_split_point c5_input = (4096, [(['p', 'r', 'e'], 0)]) := by
  unfold find_split_point
  rw [c5_len, if_neg (show ¬((4111 : Nat) ≤ MSG_LIMIT) by decide)]
  rw [c5_boundary, c5_take, c5_open]
  rfl

theorem c5_cut : split_html_cut c5_input = (4096, [(['p', 'r', 'e'], 0)]) := by
  unfold split_html_cut
  rw [c5_fsp]
  rfl

theorem c5_emit : split_html_emit c5_input (4096, [(['p', 'r', 'e'], 0)])
    = ((c5_head ++ List.replicate 4091 'x') ++ c5_close,
       c5_head ++ (List.replicate 9 'x' ++ c5_close)) := by
  unfold split_html_emit
  rw [if_neg (show ¬(([(['p', 'r', 'e'], 0)] : List (List Char × Nat)).isEmpty = true)
    by decide)]
  rw [c5_take, c5_drop]
  constructor

theorem c5_eval : split_html c5_input
    = [(c5_head ++ List.replicate 4091 'x') ++ c5_close,
       c5_head ++ (List.replicate 9 'x' ++ c5_close)] := by
  rw [split_html, if_neg (by rw [c5_len]; decide)]
  rw [c5_len]
  rw [show (4111 : Nat) = 4110 + 1 from rfl]
  rw [split_html_loop]
  rw [show c5_input.isEmpty = false by rw [c5_input]; rfl]
  rw [if_neg (show ¬(false = true) by decide)]
  rw [c5_len, if_neg (show ¬((4111 : Nat) ≤ MSG_LIMIT) by decide)]
  rw [c5_cut, c5_emit]
  rw [show (4110 : Nat) = 4109 + 1 from rfl]
  rw [split_html_loop]
  rw [show (c5_head ++ (List.replicate 9 'x' ++ c5_close)).isEmpty = false from rfl]
  rw [if_neg (show ¬(false = true) by decide)]
  rw [if_pos (show (c5_head ++ (List.replicate 9 'x' ++ c5_close)).length ≤ MSG_LIMIT by
    rw [List.length_append, List.length_append, List.length_replicate]; decide)]

theorem c5_seg1_len : ((c5_head ++ List.replicate 4091 'x') ++ c5_close).length = 4102 := by
  rw [List.length_append, List.length_append, List.length_replicate]
  rfl

theorem c6_boundary : candidateBoundary c6_input = 4096 := by
  have hsplit : c6_input = List.replicate 3896 'x' ++ c6_tail := by
    rw [c6_input, c6_tail, ← List.append_assoc, ← List.replicate_add]
  have hdrop : (List.replicate 3896 'x' ++ c6_tail).drop 3896 = c6_tail :=
    List.drop_left' (by rw [List.length_replicate])
  have htake : c6_tail.take 200 = List.replicate 200 'x' := by
    rw [c6_tail]
    exact List.take_left' (by rw [List.length_replicate])
  unfold candidateBoundary rfindChar
  rw [show MSG_LIMIT - NEWLINE_SEARCH_TAIL = 3896 from rfl]
  rw [show MSG_LIMIT = 4096 from rfl]
  rw [hsplit, hdrop]
  rw [show (4096 - 3896 : Nat) = 200 from rfl, htake]
  rw [foldl_rfindStep_replicate (by decide)]
  rfl

theorem c6_eval : split_message c6_input =
    [List.replicate 4096 'x', '\n' :: List.replicate 200 'y'] := by
  have hlen : c6_input.length = 4297 := by
    rw [c6_input, List.length_append, List.length_replicate, List.length_cons,
      List.length_replicate]
  have htake : c6_input.take 4096 = List.replicate 4096 'x' := by
    rw [c6_input]
    exact List.take_left' (by rw [List.length_replicate])
  have hdrop : c6_input.drop 4096 = '\n' :: List.replicate 200 'y' := by
    rw [c6_input]
    exact List.drop_left' (by rw [List.length_replicate])
  rw [split_message, if_neg (by rw [hlen]; decide)]
  rw [split_message_loop]
  rw [show c6_input.isEmpty = false by rw [c6_input]; rfl]
  rw [if_neg (show ¬(false = true) by decide)]
  rw [hlen, if_neg (show ¬((4297 : Nat) ≤ MSG_LIMIT) by decide)]
  rw [c6_boundary, htake, hdrop]
  rw [split_message_loop]
  rw [if_neg (show ¬(List.isEmpty ('\n' :: List.replicate 200 'y') = true) by decide)]
  rw [if_pos (show List.length ('\n' :: List.replicate 200 'y') ≤ MSG_LIMIT by
    rw [List.length_cons, List.length_replicate]; decide)]

/-- C6: counterexample.  For "x"*MSG_LIMIT ++ "\n" ++ "y"*200 the newline sits
at index 4096, OUTSIDE the end-exclusive search window [3896, 4096) of
str.rfind, so no newline is found and the claim's "the break point is the last
newline within the search tail, breaking after it inclusively" is false: the
first segment is "x"*4096 and does not include the newline. -/
theorem c6_counterexample :
    ¬ ((split_message c6_input).head? = some (List.replicate 4096 'x' ++ ['\n'])) := by
  rw [c6_eval]
  intro h
  have h2 := Option.some.inj h
  have h3 := congrArg List.length h2
  rw [List.length_replicate, List.length_append, List.length_replicate] at h3
  simp at h3

/-- C6 (amended): on "x"*MSG_LIMIT ++ "\n" ++ "y"*200 the split is the hard
break at MSG_LIMIT, which lands immediately before the newline (the newline at
index MSG_LIMIT is outside the end-exclusive search window): the result is
["x"*4096, "\n" ++ "y"*200]. -/
theorem c6_amended : split_message c6_input =
    [List.replicate 4096 'x', '\n' :: List.replicate 200 'y'] := c6_eval

/-- C4: the claim's formatted-text half fails on the code.  The well-formed
input "x"*4094 ++ "<b>y</b>" is split with the hard boundary landing inside
the <b> tag (the truncated "<b" matches no tag, so the open-tag walk reports
nothing open): the first segment ends with a dangling "<b" and the second
segment ">y</b>" closes a tag that was never opened, so it does not parse as
well-formed inline markup — contradicting the claim and the function's own
"preserving tag integrity" docstring. -/
theorem c4_split_html_malformed_segment :
    split_html c4_input
      = [List.replicate 4094 'x' ++ ['<', 'b'], ['>', 'y', '<', '/', 'b', '>']]
    ∧ wellFormedInline c4_input = true
    ∧ ∃ seg ∈ split_html c4_input, wellFormedInline seg = false := by
  refine ⟨c4_eval, c4_input_wf, ['>', 'y', '<', '/', 'b', '>'], ?_, c4_seg2_not_wf⟩
  rw [c4_eval]
  exact List.mem_cons_of_mem _ (List.mem_singleton.mpr rfl)

/-- C5: the claim fails on the code.  Splitting "<pre>" ++ "x"*4100 ++
"</pre>" puts the boundary at 4096 inside the open block tag, and _split_html
then appends "</pre>" to the 4096-character slice: the first emitted segment
has 4102 characters, exceeding the 4096-character message limit promised by
the claim and by the function's own docstring. -/
theorem c5_split_html_overlong_segment :
    split_html c5_input
      = [(c5_head ++ List.replicate 4091 'x') ++ c5_close,
         c5_head ++ (List.replicate 9 'x' ++ c5_close)]
    ∧ ∃ seg ∈ split_html c5_input, MSG_LIMIT < seg.length := by
  refine ⟨c5_eval, (c5_head ++ List.replicate 4091 'x') ++ c5_close, ?_, ?_⟩
  · rw [c5_eval]
    exact List.mem_cons_self _ _
  · rw [c5_seg1_len]
    decide

/-- C1: the claim fails on the code.  When the reader enqueues three
agent_message_chunk notifications and then fulfills the prompt's response in
the same scheduling tick, the session_prompt loop — whose FIRST test each
iteration is future.done(), with no emptiness check of the notification
queue — yields TurnEnd immediately and drops all three chunks.  The
repository's own regression test
(test_chunks_not_dropped_when_future_resolves_early, whose comment marks this
behavior BUG) asserts the chunks must precede TurnEnd and fails. -/
theorem c1_chunks_dropped :
    session_prompt_updates 0
      [chunkNotif "chunk-0", chunkNotif "chunk-1", chunkNotif "chunk-2",
        StdoutMsg.response 0]
      = [turnEndUpdate] := by
  rfl

/-- C7: counterexample.  session_set_model performs no state check: called in
BUSY (a state other than Ready) it does not raise — it proceeds to send the
session/set_model request to the subprocess. -/
theorem c7_counterexample :
    ACPClientState.BUSY ≠ ACPClientState.READY
    ∧ ACPClient.session_set_model_start ACPClientState.BUSY
        = Except.ok ("session/set_model", ACPClientState.BUSY) :=
  ⟨by decide, rfl⟩

/-- C7 (amended): initialize outside Idle, and session_new, session_load and
session_prompt outside Ready, each fail immediately — the raise precedes any
write to the subprocess — while session_set_model performs no state check and
sends its request in every state. -/
theorem c7_amended (s : ACPClientState) :
    (s ≠ ACPClientState.IDLE →
      ACPClient.initialize_start s = Except.error ("Cannot initialize in state " ++ s.pyName))
    ∧ (s ≠ ACPClientState.READY →
      ACPClient.session_new_start s
        = Except.error ("Cannot create session in state " ++ s.pyName))
    ∧ (s ≠ ACPClientState.READY →
      ACPClient.session_load_start s
        = Except.error ("Cannot load session in state " ++ s.pyName))
    ∧ (s ≠ ACPClientState.READY →
      ACPClient.session_prompt_start s
        = Except.error ("Cannot prompt in state " ++ s.pyName))
    ∧ ACPClient.session_set_model_start s = Except.ok ("session/set_model", s) := by
  refine ⟨fun h => ?_, fun h => ?_, fun h => ?_, fun h => ?_, rfl⟩
  · rw [ACPClient.initialize_start, if_pos h]
  · rw [ACPClient.session_new_start, if_pos h]
  · rw [ACPClient.session_load_start, if_pos h]
  · rw [ACPClient.session_prompt_start, if_pos h]

/-- C7 witness: the amended state-check theorem applied at concrete illegal
states. -/
theorem c7_amended_witness :
    ACPClient.initialize_start ACPClientState.BUSY
      = Except.error ("Cannot initialize in state " ++ ACPClientState.BUSY.pyName)
    ∧ ACPClient.session_new_start ACPClientState.DEAD
      = Except.error ("Cannot create session in state " ++ ACPClientState.DEAD.pyName)
    ∧ ACPClient.session_load_start ACPClientState.IDLE
      = Except.error ("Cannot load session in state " ++ ACPClientState.IDLE.pyName)
    ∧ ACPClient.session_prompt_start ACPClientState.BUSY
      = Except.error ("Cannot prompt in state " ++ ACPClientState.BUSY.pyName)
    ∧ ACPClient.session_set_model_start ACPClientState.DEAD
      = Except.ok ("session/set_model", ACPClientState.DEAD) :=
  ⟨(c7_amended ACPClientState.BUSY).1 (by decide),
   (c7_amended ACPClientState.DEAD).2.1 (by decide),
   (c7_amended ACPClientState.IDLE).2.2.1 (by decide),
   (c7_amended ACPClientState.BUSY).2.2.2.1 (by decide),
   (c7_amended ACPClientState.DEAD).2.2.2.2⟩

/-- C8: for every (user_id, thread_id) and any prior store contents,
upsert_session followed by get_session returns the upserted record with model
"auto"; set_model (within the claim's sequence, after the upsert) followed by
get_model returns the model just set; and a later upsert_session resets
get_model to "auto". -/
theorem c8_store_roundtrip (db : SessionDB) (u t : Int)
    (sid ws m sid2 ws2 n1 n2 n3 : String) :
    SessionStore.get_session (SessionStore.upsert_session db u t sid ws n1) u t
      = some { user_id := u, thread_id := t, session_id := sid,
               workspace_path := ws, model := "auto" }
    ∧ SessionStore.get_model
        (SessionStore.set_model (SessionStore.upsert_session db u t sid ws n1) u t m n2) u t
      = m
    ∧ SessionStore.get_model
        (SessionStore.upsert_session
          (SessionStore.set_model (SessionStore.upsert_session db u t sid ws n1) u t m n2)
          u t sid2 ws2 n3) u t
      = "auto" := by
  refine ⟨?_, ?_, ?_⟩
  · rw [SessionStore.get_session, SessionStore.upsert_session]
    simp
  · rw [SessionStore.get_model, SessionStore.set_model, SessionStore.upsert_session]
    simp
  · rw [SessionStore.get_model, SessionStore.upsert_session]
    simp

/-- C10: for a (user_id, thread_id) with no stored record, set_model leaves
the store unchanged — the SQL UPDATE matches no row and raises no error — and
get_model returns "auto". -/
theorem c10_set_model_missing_row (db : SessionDB) (u t : Int) (m now : String)
    (h : db (u, t) = none) :
    SessionStore.set_model db u t m now = db
    ∧ SessionStore.get_model db u t = "auto" := by
  constructor
  · funext k
    rw [SessionStore.set_model]
    by_cases hk : k = (u, t)
    · rw [if_pos hk, hk, h]
      rfl
    · rw [if_neg hk]
  · rw [SessionStore.get_model, h]

/-- C10 witness: the missing-row theorem applied to the empty store. -/
theorem c10_witness :
    SessionStore.set_model (fun _ => none) 1 42 "claude-sonnet" "2026-01-01" = (fun _ => none)
    ∧ SessionStore.get_model (fun _ => none) 1 42 = "auto" :=
  c10_set_model_missing_row (fun _ => none) 1 42 "claude-sonnet" "2026-01-01" rfl

namespace ProcessPool

theorem affinity_ok_iff (s : PoolState) :
    affinity_ok s = true ↔ ∀ e ∈ s.session_affinity, ∃ sl ∈ s.slots, sl.slot_id = e.2 := by
  simp [affinity_ok, List.all_eq_true, List.any_eq_true]

theorem exists_slotId_iff (slots : List ProcessSlot) (i : Nat) :
    (∃ sl ∈ slots, sl.slot_id = i) ↔ i ∈ slots.map (fun sl => sl.slot_id) := by
  simp [List.mem_map]

theorem map_slotId_updateFirstWhere (p : ProcessSlot → Bool) (f : ProcessSlot → ProcessSlot)
    (hf : ∀ x, (f x).slot_id = x.slot_id) (l : List ProcessSlot) :
    (updateFirstWhere p f l).map (fun sl => sl.slot_id) = l.map (fun sl => sl.slot_id) := by
  induction l with
  | nil => rfl
  | cons sl rest ih =>
    rw [updateFirstWhere]
    split
    · rw [List.map_cons, List.map_cons, hf]
    · rw [List.map_cons, List.map_cons, ih]

theorem exists_slot_updateFirstWhere {i : Nat} {p : ProcessSlot → Bool}
    {f : ProcessSlot → ProcessSlot} {l : List ProcessSlot}
    (h : ∃ sl ∈ l, sl.slot_id = i) (hf : ∀ x, (f x).slot_id = x.slot_id) :
    ∃ sl ∈ updateFirstWhere p f l, sl.slot_id = i := by
  induction l with
  | nil =>
    obtain ⟨w, hw, _⟩ := h
    cases hw
  | cons sl rest ih =>
    obtain ⟨w, hw, hwi⟩ := h
    rw [updateFirstWhere]
    split
    · rcases List.mem_cons.mp hw with rfl | ht
      · exact ⟨f w, List.mem_cons_self _ _, by rw [hf]; exact hwi⟩
      · exact ⟨w, List.mem_cons_of_mem _ ht, hwi⟩
    · rcases List.mem_cons.mp hw with rfl | ht
      · exact ⟨w, List.mem_cons_self _ _, hwi⟩
      · obtain ⟨w2, hw2, hw2i⟩ := ih ⟨w, ht, hwi⟩
        exact ⟨w2, List.mem_cons_of_mem _ hw2, hw2i⟩

theorem release_preserves (s : PoolState) (slot : ProcessSlot) (sess : Option String)
    (tid : Option Nat) (now : Int) (h : affinity_ok s = true) :
    affinity_ok (release s slot sess tid now) = true := by
  rw [affinity_ok_iff] at h
  rw [affinity_ok_iff]
  unfold release release_inner
  split
  · exact h
  · split
    · -- crash path: slot removed, entries pointing at it filtered out
      intro e he
      simp only [List.mem_filter] at he
      obtain ⟨he1, he2⟩ := he
      obtain ⟨sl, hm, hid⟩ := h e he1
      refine ⟨sl, ?_, hid⟩
      have hne : sl ≠ slot := by
        intro hcontr
        rw [hcontr] at hid
        rw [hid] at he2
        simp at he2
      exact (List.mem_erase_of_ne hne).mpr hm
    · -- normal path: only in-place mutation of the slot, ids unchanged
      intro e he
      dsimp only at he ⊢
      exact exists_slot_updateFirstWhere (h e he) (fun x => rfl)

theorem mem_dictSet {κ α : Type} [BEq κ] (d : List (κ × α)) (k : κ) (v : α)
    (e : κ × α) (he : e ∈ dictSet d k v) : e ∈ d ∨ e = (k, v) := by
  unfold dictSet at he
  split at he
  · obtain ⟨orig, hmem, heq⟩ := List.mem_map.mp he
    by_cases hk : (orig.1 == k) = true
    · rw [if_pos hk] at heq
      right
      exact heq.symm
    · rw [if_neg hk] at heq
      left
      rw [← heq]
      exact hmem
  · rcases List.mem_append.mp he with hl | hr
    · exact Or.inl hl
    · right
      exact List.mem_singleton.mp hr

theorem mem_dictRemove {κ α : Type} [BEq κ] (d : List (κ × α)) (k : κ)
    (e : κ × α) (he : e ∈ dictRemove d k) : e ∈ d ∧ (e.1 == k) = false := by
  unfold dictRemove at he
  have h2 := List.mem_filter.mp he
  refine ⟨h2.1, ?_⟩
  have h3 := h2.2
  simp only [decide_eq_true_eq, Bool.not_eq_true] at h3
  exact h3

theorem find?_key_none {κ α : Type} [BEq κ] (d : List (κ × α)) (k : κ)
    (h : dictContains d k = false) : d.find? (fun e => e.1 == k) = none := by
  induction d with
  | nil => rfl
  | cons e rest ih =>
    unfold dictContains at h
    rw [List.any_cons, Bool.or_eq_false_iff] at h
    rw [List.find?_cons, h.1]
    exact ih h.2

theorem dictGet_dictSet {κ α : Type} [BEq κ] [LawfulBEq κ] (d : List (κ × α)) (k : κ)
    (v : α) : dictGet (dictSet d k v) k = some v := by
  unfold dictGet dictSet
  split
  · rename_i hc
    induction d with
    | nil => simp [dictContains] at hc
    | cons e rest ih =>
      rw [List.map_cons, List.find?_cons]
      by_cases hek : (e.1 == k) = true
      · rw [if_pos hek]
        simp
      · rw [if_neg hek]
        have hek2 : (e.1 == k) = false := by
          cases h2 : (e.1 == k)
          · rfl
          · exact absurd h2 hek
        rw [hek2]
        simp only [cond_false]
        apply ih
        unfold dictContains at hc ⊢
        rw [List.any_cons, hek2] at hc
        simpa using hc
  · rename_i hc
    rw [List.find?_append]
    rw [find?_key_none d k (by simpa using hc)]
    simp

theorem foldl_max_init_le (l : List Nat) (acc : Nat) : acc ≤ l.foldl Nat.max acc := by
  induction l generalizing acc with
  | nil => exact Nat.le_refl acc
  | cons b t ih =>
    rw [List.foldl_cons]
    exact Nat.le_trans (Nat.le_max_left acc b) (ih (Nat.max acc b))

theorem le_foldl_max_of_mem {a : Nat} (l : List Nat) (acc : Nat) (h : a ∈ l) :
    a ≤ l.foldl Nat.max acc := by
  induction l generalizing acc with
  | nil => cases h
  | cons b t ih =>
    rw [List.foldl_cons]
    rcases List.mem_cons.mp h with rfl | ht
    · exact Nat.le_trans (Nat.le_max_right acc a) (foldl_max_init_le t (Nat.max acc a))
    · exact ih (Nat.max acc b) ht

theorem slot_id_lt_newSlotId {sl : ProcessSlot} {slots : List ProcessSlot}
    (h : sl ∈ slots) : sl.slot_id < newSlotId slots := by
  cases slots with
  | nil => cases h
  | cons x rest =>
    show sl.slot_id < (List.map (fun s => s.slot_id) (x :: rest)).foldl Nat.max 0 + 1
    have hm : sl.slot_id ∈ (x :: rest).map (fun s => s.slot_id) :=
      List.mem_map.mpr ⟨sl, h, rfl⟩
    have := le_foldl_max_of_mem ((x :: rest).map (fun s => s.slot_id)) 0 hm
    omega

theorem placeholder_not_mem {slots : List ProcessSlot} {thread_id user_id : Nat} {now : Int} :
    spawn_placeholder (newSlotId slots) thread_id user_id now ∉ slots := by
  intro hmem
  have := slot_id_lt_newSlotId hmem
  simp [spawn_placeholder] at this

theorem acquire_step2_preserves (s : PoolState) (thread_id user_id : Nat) (now : Int)
    (spawn_ok : Bool) (h : affinity_ok s = true) :
    affinity_ok (acquire_step2 s thread_id user_id now spawn_ok).2 = true := by
  rw [affinity_ok_iff] at h
  rw [affinity_ok_iff]
  unfold acquire_step2
  split
  · -- step 2a: an idle compatible slot was found
    rename_i sl hfind
    intro e he
    dsimp only at he ⊢
    refine exists_slot_updateFirstWhere ?_ (fun x => rfl)
    rcases mem_dictSet _ _ _ e he with hold | hnew
    · exact h e hold
    · refine ⟨sl, List.mem_of_find?_eq_some hfind, ?_⟩
      rw [hnew]
  · -- step 2b / 2c
    split
    · split
      · -- spawn succeeded: placeholder appended and attached
        intro e he
        dsimp only at he ⊢
        refine exists_slot_updateFirstWhere ?_ (fun x => rfl)
        rcases mem_dictSet _ _ _ e he with hold | hnew
        · obtain ⟨sl, hm, hid⟩ := h e hold
          exact ⟨sl, List.mem_append_left _ hm, hid⟩
        · refine ⟨spawn_placeholder (newSlotId s.slots) thread_id user_id now,
            List.mem_append_right _ (List.mem_singleton.mpr rfl), ?_⟩
          rw [hnew]
          rfl
      · -- spawn failed
        split
        · -- the affinity entry still points at the placeholder: both are removed
          intro e he
          dsimp only at he ⊢
          have h1 := mem_dictRemove _ _ _ he
          rcases mem_dictSet _ _ _ e h1.1 with hold | hnew
          · obtain ⟨sl, hm, hid⟩ := h e hold
            refine ⟨sl, ?_, hid⟩
            rw [List.erase_append_right _ placeholder_not_mem]
            rw [List.erase_cons_head, List.append_nil]
            exact hm
          · exfalso
            have h2 := h1.2
            rw [hnew] at h2
            simp at h2
        · -- unreachable: the freshly written affinity entry always reads back
          rename_i hget
          exfalso
          rw [dictGet_dictSet] at hget
          simp at hget
    · -- at capacity: state unchanged
      exact h

theorem acquire_preserves (s : PoolState) (thread_id user_id : Nat) (now : Int)
    (spawn_ok : Bool) (h : affinity_ok s = true) :
    affinity_ok (acquire s thread_id user_id now spawn_ok).2 = true := by
  unfold acquire
  split
  · split
    · -- stale affinity entry erased, then step 2
      apply acquire_step2_preserves
      rw [affinity_ok_iff] at h ⊢
      intro e he
      exact h e (mem_dictRemove _ _ _ he).1
    · split
      · -- affinity slot idle: rebound in place
        rw [affinity_ok_iff] at h ⊢
        intro e he
        dsimp only at he ⊢
        exact exists_slot_updateFirstWhere (h e he) (fun x => rfl)
      · -- affinity slot busy: only the cancel event changes
        rw [affinity_ok_iff] at h ⊢
        exact h
  · exact acquire_step2_preserves s thread_id user_id now spawn_ok h

theorem reaper_remove_step_preserves (st : PoolState) (sl : ProcessSlot)
    (h : affinity_ok st = true) :
    affinity_ok
      { st with
         slots := st.slots.erase sl
         session_affinity := st.session_affinity.filter (fun e => ¬ (e.2 == sl.slot_id)) }
      = true := by
  rw [affinity_ok_iff] at h
  rw [affinity_ok_iff]
  intro e he
  dsimp only at he ⊢
  have h2 := List.mem_filter.mp he
  obtain ⟨sl0, hm, hid⟩ := h e h2.1
  refine ⟨sl0, ?_, hid⟩
  have hne : sl0 ≠ sl := by
    intro hcontr
    have h3 := h2.2
    rw [← hcontr, hid] at h3
    simp at h3
  exact (List.mem_erase_of_ne hne).mpr hm

theorem reaper_foldl_preserves (l : List ProcessSlot) (st : PoolState)
    (h : affinity_ok st = true) :
    affinity_ok
      (l.foldl
        (fun st sl =>
          { st with
             slots := st.slots.erase sl
             session_affinity :=
               st.session_affinity.filter (fun e => ¬ (e.2 == sl.slot_id)) })
        st)
      = true := by
  induction l generalizing st with
  | nil => exact h
  | cons sl rest ih =>
    rw [List.foldl_cons]
    exact ih _ (reaper_remove_step_preserves st sl h)

theorem reaper_pass_preserves (s : PoolState) (now : Int) (h : affinity_ok s = true) :
    affinity_ok (reaper_pass s now) = true := by
  unfold reaper_pass
  exact reaper_foldl_preserves _ s h

theorem release_and_dequeue_preserves (s : PoolState) (slot : ProcessSlot)
    (sess : Option String) (tid : Option Nat) (now : Int) (h : affinity_ok s = true) :
    affinity_ok (release_and_dequeue s slot sess tid now).2 = true := by
  have h1 : affinity_ok (release_inner s slot sess tid now).1 = true :=
    release_preserves s slot sess tid now h
  unfold release_and_dequeue
  rcases hrel : release_inner s slot sess tid now with ⟨s1, slot1⟩
  rw [hrel] at h1
  dsimp only at h1 ⊢
  split
  · exact h1
  · rename_i hcond
    have hmem : slot1 ∈ s1.slots := by
      rcases hcont : s1.slots.contains slot1 with _ | _
      · exact absurd (Or.inl (by rw [hcont]; decide)) hcond
      · exact List.mem_of_elem_eq_true hcont
    split
    · -- nothing dequeued: only the queue changed
      rw [affinity_ok_iff] at h1 ⊢
      exact h1
    · -- a request was dequeued: slot rebound, affinity possibly extended
      rename_i r q3 hcn
      rw [affinity_ok_iff] at h1 ⊢
      intro e he
      dsimp only at he ⊢
      refine exists_slot_updateFirstWhere ?_ (fun x => rfl)
      by_cases hc : dictContains s1.session_affinity (r.user_id, r.thread_id) = true
      · rw [if_pos hc] at he
        exact h1 e he
      · rw [if_neg hc] at he
        rcases mem_dictSet _ _ _ e he with hold | hnew
        · exact h1 e hold
        · refine ⟨slot1, hmem, ?_⟩
          rw [hnew]

theorem updateFirstWhere_mem_eq {slot : ProcessSlot} (f : ProcessSlot → ProcessSlot)
    {l : List ProcessSlot} (h : slot ∈ l) :
    f slot ∈ updateFirstWhere (fun x => x == slot) f l := by
  induction l with
  | nil => cases h
  | cons a rest ih =>
    rw [updateFirstWhere]
    by_cases ha : (a == slot) = true
    · rw [if_pos ha]
      have : a = slot := eq_of_beq ha
      rw [this]
      exact List.mem_cons_self _ _
    · rw [if_neg ha]
      have hs : slot ∈ rest := by
        rcases List.mem_cons.mp h with rfl | ht
        · exact absurd (beq_self_eq_true slot) ha
        · exact ht
      exact List.mem_cons_of_mem _ (ih hs)

theorem mem_updateFirstWhere {p : ProcessSlot → Bool} {f : ProcessSlot → ProcessSlot}
    {l : List ProcessSlot} {y : ProcessSlot} (h : y ∈ updateFirstWhere p f l) :
    y ∈ l ∨ ∃ x ∈ l, y = f x := by
  induction l with
  | nil => cases h
  | cons a rest ih =>
    rw [updateFirstWhere] at h
    split at h
    · rcases List.mem_cons.mp h with rfl | ht
      · exact Or.inr ⟨a, List.mem_cons_self _ _, rfl⟩
      · exact Or.inl (List.mem_cons_of_mem _ ht)
    · rcases List.mem_cons.mp h with rfl | ht
      · exact Or.inl (List.mem_cons_self _ _)
      · rcases ih ht with hl | ⟨x, hx, hy⟩
        · exact Or.inl (List.mem_cons_of_mem _ hl)
        · exact Or.inr ⟨x, List.mem_cons_of_mem _ hx, hy⟩

theorem unique_by_id {l : List ProcessSlot} (hnd : (l.map (fun sl => sl.slot_id)).Nodup)
    {x y : ProcessSlot} (hx : x ∈ l) (hy : y ∈ l) (hid : y.slot_id = x.slot_id) :
    y = x := by
  induction l with
  | nil => cases hx
  | cons a rest ih =>
    rw [List.map_cons, List.nodup_cons] at hnd
    rcases List.mem_cons.mp hx with rfl | hxt
    · rcases List.mem_cons.mp hy with rfl | hyt
      · rfl
      · exfalso
        apply hnd.1
        have hmm : y.slot_id ∈ rest.map (fun sl => sl.slot_id) :=
          List.mem_map.mpr ⟨y, hyt, rfl⟩
        rw [hid] at hmm
        exact hmm
    · rcases List.mem_cons.mp hy with rfl | hyt
      · exfalso
        apply hnd.1
        have hmm : x.slot_id ∈ rest.map (fun sl => sl.slot_id) :=
          List.mem_map.mpr ⟨x, hxt, rfl⟩
        rw [← hid] at hmm
        exact hmm
      · exact ih hnd.2 hxt hyt

theorem dictContains_dictRemove_self {κ α : Type} [BEq κ] (d : List (κ × α)) (k : κ) :
    dictContains (dictRemove d k) k = false := by
  unfold dictContains dictRemove
  rw [Bool.eq_false_iff]
  intro hany
  obtain ⟨e, hmem, hek⟩ := List.any_eq_true.mp hany
  have h2 := (List.mem_filter.mp hmem).2
  rw [hek] at h2
  simp at h2

theorem acquire_step2_result (s : PoolState) (thread_id user_id : Nat) (now : Int)
    (spawn_ok : Bool) (sid : Nat)
    (h : (acquire_step2 s thread_id user_id now spawn_ok).1 = some sid) :
    (∃ sl ∈ s.slots, sl.slot_id = sid ∧ sl.status = SlotStatus.IDLE)
    ∨ sid = newSlotId s.slots := by
  unfold acquire_step2 at h
  split at h
  · rename_i sl hfind
    dsimp only at h
    have hs := Option.some.inj h
    have hpred := List.find?_some hfind
    rw [Bool.and_eq_true] at hpred
    refine Or.inl ⟨sl, List.mem_of_find?_eq_some hfind, hs, ?_⟩
    exact eq_of_beq hpred.1
  · split at h
    · split at h
      · dsimp only at h
        exact Or.inr (Option.some.inj h).symm
      · dsimp only at h
        cases h
    · cases h

theorem acquire_result (s : PoolState) (thread_id user_id : Nat) (now : Int)
    (spawn_ok : Bool) (sid : Nat)
    (h : (acquire s thread_id user_id now spawn_ok).1 = some sid) :
    (∃ sl ∈ s.slots, sl.slot_id = sid ∧ sl.status = SlotStatus.IDLE)
    ∨ sid = newSlotId s.slots := by
  unfold acquire at h
  split at h
  · split at h
    · have h2 := acquire_step2_result _ thread_id user_id now spawn_ok sid h
      exact h2
    · rename_i affinity_slot hfind
      split at h
      · rename_i hidle
        dsimp only at h
        refine Or.inl ⟨affinity_slot, List.mem_of_find?_eq_some hfind,
          Option.some.inj h, eq_of_beq hidle⟩
      · cases h
  · exact acquire_step2_result _ _ _ _ _ _ h

theorem release_inner_alive {s : PoolState} {slot : ProcessSlot} (hmem : slot ∈ s.slots)
    (halive : slot.client = some true) (sess : Option String) (tid : Option Nat)
    (now : Int) :
    release_inner s slot sess tid now =
      ({ s with
          slots := updateFirstWhere (fun x => x == slot) (idleSlot sess tid now) s.slots
          in_flight := s.in_flight.untrack_opt tid },
       idleSlot sess tid now slot) := by
  unfold release_inner
  rw [if_neg (not_not_intro (List.elem_eq_true_of_mem hmem))]
  rw [if_neg (show ¬((slot.client == none || slot.client == some false) = true) by
    rw [halive]; decide)]

/-- C9: atomic handoff.  Each release_and_dequeue call is one critical
section of the pool mutex (its lock body contains no await), embedded here as
a single atomic transition, so no acquire can interleave between the release
and the dequeue.  When a queued request with affinity to the released slot
(and a compatible user) exists, the operation hands the slot to exactly such a
request and re-marks it busy — and no acquire on the resulting state, by any
conversation, can return this slot. -/
theorem c9_affinity_handoff (s : PoolState) (slot : ProcessSlot) (sess : Option String)
    (tid : Option Nat) (now : Int) (e0 : (Nat × Nat) × Nat) (r0 : QueuedRequest)
    (hnodup : (s.slots.map (fun sl => sl.slot_id)).Nodup)
    (hslot : slot ∈ s.slots)
    (halive : slot.client = some true)
    (hfind : s.session_affinity.find? (fun e =>
        e.2 == slot.slot_id && (slot.user_id == none || some e.1.1 == slot.user_id)
        && dictContains s.request_queue.queue e.1.2) = some e0)
    (hget : dictGet s.request_queue.queue e0.1.2 = some r0) :
    (release_and_dequeue s slot sess tid now).1 = (some r0, some slot.slot_id)
    ∧ ∀ t u now2 ok2,
        (acquire (release_and_dequeue s slot sess tid now).2 t u now2 ok2).1
          ≠ some slot.slot_id := by
  have hpred := List.find?_some hfind
  simp only [Bool.and_eq_true] at hpred
  unfold release_and_dequeue
  rw [release_inner_alive hslot halive]
  dsimp only
  generalize hg : idleSlot sess tid now slot = slot1
  have hid1 : slot1.slot_id = slot.slot_id := by rw [← hg]; rfl
  have hu1 : slot1.user_id = slot.user_id := by rw [← hg]; rfl
  have hst1 : slot1.status = SlotStatus.IDLE := by rw [← hg]; rfl
  have hmem1 : slot1 ∈ updateFirstWhere (fun x => x == slot) (idleSlot sess tid now) s.slots := by
    rw [← hg]
    exact updateFirstWhere_mem_eq _ hslot
  rw [if_neg (show ¬(¬((updateFirstWhere (fun x => x == slot) (idleSlot sess tid now)
        s.slots).contains slot1 = true)
      ∨ ¬((slot1.status == SlotStatus.IDLE) = true)) by
    intro hor
    rcases hor with h1 | h2
    · exact h1 (List.elem_eq_true_of_mem hmem1)
    · apply h2
      rw [hst1]
      rfl)]
  have hfind1 : s.session_affinity.find? (fun e =>
      e.2 == slot1.slot_id && (slot1.user_id == none || some e.1.1 == slot1.user_id)
      && dictContains s.request_queue.queue e.1.2) = some e0 := by
    rw [hid1, hu1]
    exact hfind
  have hdbt : s.request_queue.dequeue_by_thread e0.1.2
      = (some r0, { queue := dictRemove s.request_queue.queue e0.1.2,
                    order := s.request_queue.order.erase e0.1.2 }) := by
    unfold RequestQueue.dequeue_by_thread
    rw [if_neg (not_not_intro hpred.2), hget]
  have hcn : choose_next s.request_queue slot1 s.session_affinity tid
      = (some r0, { queue := dictRemove s.request_queue.queue e0.1.2,
                    order := s.request_queue.order.erase e0.1.2 }) := by
    unfold choose_next
    rw [hfind1]
    exact hdbt
  rw [hcn]
  constructor
  · show (some r0, some slot1.slot_id) = (some r0, some slot.slot_id)
    rw [hid1]
  · intro t u now2 ok2 hacq
    have hrebind : rebindSlot r0.thread_id slot1 ∈
        updateFirstWhere (fun x => x == slot1) (rebindSlot r0.thread_id)
          (updateFirstWhere (fun x => x == slot) (idleSlot sess tid now) s.slots) :=
      updateFirstWhere_mem_eq _ hmem1
    rcases acquire_result _ t u now2 ok2 slot.slot_id hacq with ⟨sl, hm0, hslid, hidle⟩ | hnew0
    · have hm : sl ∈ updateFirstWhere (fun x => x == slot1) (rebindSlot r0.thread_id)
          (updateFirstWhere (fun x => x == slot) (idleSlot sess tid now) s.slots) := hm0
      have hids : (updateFirstWhere (fun x => x == slot1) (rebindSlot r0.thread_id)
          (updateFirstWhere (fun x => x == slot) (idleSlot sess tid now)
            s.slots)).map (fun sl => sl.slot_id)
          = s.slots.map (fun sl => sl.slot_id) := by
        rw [map_slotId_updateFirstWhere (fun x => x == slot1) (rebindSlot r0.thread_id)
          (fun x => rfl)]
        rw [map_slotId_updateFirstWhere (fun x => x == slot) (idleSlot sess tid now)
          (fun x => rfl)]
      have hnodup2 : ((updateFirstWhere (fun x => x == slot1) (rebindSlot r0.thread_id)
          (updateFirstWhere (fun x => x == slot) (idleSlot sess tid now)
            s.slots)).map (fun sl => sl.slot_id)).Nodup := by
        rw [hids]
        exact hnodup
      have hequ : sl = rebindSlot r0.thread_id slot1 := by
        apply unique_by_id hnodup2 hrebind hm
        rw [show (rebindSlot r0.thread_id slot1).slot_id = slot1.slot_id from rfl, hid1]
        exact hslid
      rw [hequ] at hidle
      simp [rebindSlot] at hidle
    · have hnew : slot.slot_id
          = newSlotId (updateFirstWhere (fun x => x == slot1) (rebindSlot r0.thread_id)
              (updateFirstWhere (fun x => x == slot) (idleSlot sess tid now) s.slots)) :=
        hnew0
      have hlt := slot_id_lt_newSlotId hrebind
      rw [show (rebindSlot r0.thread_id slot1).slot_id = slot1.slot_id from rfl, hid1] at hlt
      rw [← hnew] at hlt
      omega

/-- C3 (amended): when release_and_dequeue's FIFO fallback takes the oldest
queued request and it belongs to a different user than the slot's bound user,
(none, none) is returned and the request is re-enqueued at the tail of the
FIFO — its original position is preserved only when nothing else is queued
behind it. -/
theorem c3_fifo_putback_tail (s : PoolState) (slot : ProcessSlot) (sess : Option String)
    (t0 : Nat) (now : Int) (u : Nat) (r : QueuedRequest) (rest : List Nat)
    (hslot : slot ∈ s.slots)
    (halive : slot.client = some true)
    (huser : slot.user_id = some u)
    (hp1 : s.session_affinity.find? (fun e =>
        e.2 == slot.slot_id && (slot.user_id == none || some e.1.1 == slot.user_id)
        && dictContains s.request_queue.queue e.1.2) = none)
    (hp2 : dictContains s.request_queue.queue t0 = false)
    (horder : s.request_queue.order = r.thread_id :: rest)
    (hhead : dictGet s.request_queue.queue r.thread_id = some r)
    (hmismatch : r.user_id ≠ u) :
    (release_and_dequeue s slot sess (some t0) now).1 = (none, none)
    ∧ (release_and_dequeue s slot sess (some t0) now).2.request_queue.order
        = rest ++ [r.thread_id] := by
  unfold release_and_dequeue
  rw [release_inner_alive hslot halive]
  dsimp only
  generalize hg : idleSlot sess (some t0) now slot = slot1
  have hid1 : slot1.slot_id = slot.slot_id := by rw [← hg]; rfl
  have hu1 : slot1.user_id = slot.user_id := by rw [← hg]; rfl
  have hst1 : slot1.status = SlotStatus.IDLE := by rw [← hg]; rfl
  have hmem1 : slot1 ∈ updateFirstWhere (fun x => x == slot) (idleSlot sess (some t0) now)
      s.slots := by
    rw [← hg]
    exact updateFirstWhere_mem_eq _ hslot
  rw [if_neg (show ¬(¬((updateFirstWhere (fun x => x == slot) (idleSlot sess (some t0) now)
        s.slots).contains slot1 = true)
      ∨ ¬((slot1.status == SlotStatus.IDLE) = true)) by
    intro hor
    rcases hor with h1 | h2
    · exact h1 (List.elem_eq_true_of_mem hmem1)
    · apply h2
      rw [hst1]
      rfl)]
  have hfind1 : s.session_affinity.find? (fun e =>
      e.2 == slot1.slot_id && (slot1.user_id == none || some e.1.1 == slot1.user_id)
      && dictContains s.request_queue.queue e.1.2) = none := by
    rw [hid1, hu1]
    exact hp1
  have hdbt0 : s.request_queue.dequeue_by_thread t0 = (none, s.request_queue) := by
    unfold RequestQueue.dequeue_by_thread
    rw [if_pos (show ¬(dictContains s.request_queue.queue t0 = true) by
      rw [hp2]
      decide)]
  have hdeq : s.request_queue.dequeue
      = (some r, { queue := dictRemove s.request_queue.queue r.thread_id,
                   order := rest }) := by
    unfold RequestQueue.dequeue
    rw [horder]
    show (dictGet s.request_queue.queue r.thread_id,
      ({ queue := dictRemove s.request_queue.queue r.thread_id,
         order := rest } : RequestQueue)) = _
    rw [hhead]
  have henq : RequestQueue.enqueue
      { queue := dictRemove s.request_queue.queue r.thread_id, order := rest } r
      = { queue := dictSet (dictRemove s.request_queue.queue r.thread_id) r.thread_id r,
          order := rest ++ [r.thread_id] } := by
    unfold RequestQueue.enqueue
    rw [if_neg (show ¬(dictContains (dictRemove s.request_queue.queue r.thread_id)
        r.thread_id = true) by
      rw [dictContains_dictRemove_self]
      decide)]
  have hfifo : choose_fifo s.request_queue slot1
      = (none, { queue := dictSet (dictRemove s.request_queue.queue r.thread_id)
                   r.thread_id r,
                 order := rest ++ [r.thread_id] }) := by
    unfold choose_fifo
    rw [hdeq]
    show (match slot1.user_id with
      | some u2 => if r.user_id == u2 then
          (some r, ({ queue := dictRemove s.request_queue.queue r.thread_id,
                      order := rest } : RequestQueue))
        else (none, RequestQueue.enqueue
          { queue := dictRemove s.request_queue.queue r.thread_id, order := rest } r)
      | none => (some r, ({ queue := dictRemove s.request_queue.queue r.thread_id,
                            order := rest } : RequestQueue))) = _
    rw [hu1, huser]
    show (if r.user_id == u then _ else _) = _
    rw [if_neg (show ¬((r.user_id == u) = true) by
      intro hb
      exact hmismatch (eq_of_beq hb))]
    rw [henq]
  have hcn : choose_next s.request_queue slot1 s.session_affinity (some t0)
      = (none, { queue := dictSet (dictRemove s.request_queue.queue r.thread_id)
                   r.thread_id r,
                 order := rest ++ [r.thread_id] }) := by
    unfold choose_next
    rw [hfind1]
    show (match (some t0 : Option Nat), slot1.user_id with
      | some t, some _ =>
        match s.request_queue.dequeue_by_thread t with
        | (some r2, q2) => (some r2, q2)
        | (none, q2) => choose_fifo q2 slot1
      | _, _ => choose_fifo s.request_queue slot1) = _
    rw [hu1, huser]
    show (match s.request_queue.dequeue_by_thread t0 with
      | (some r2, q2) => (some r2, q2)
      | (none, q2) => choose_fifo q2 slot1) = _
    rw [hdbt0]
    exact hfifo
  rw [hcn]
  exact ⟨rfl, rfl⟩

end ProcessPool

/-- A crashed (dead-client) busy slot bound to user 2. -/
def c2_dead_slot : ProcessSlot :=
  { slot_id := 1, client := some false, status := SlotStatus.BUSY, last_used := 0,
    user_id := some 2, session_id := none, thread_id := some 7 }

/-- A pool holding a live slot and a crashed slot, with affinity entries for
both. -/
def c2_pool2 : PoolState :=
  { max_processes := 3, idle_timeout := 100, slots := [c2_slot, c2_dead_slot],
    request_queue := { queue := [], order := [] },
    in_flight := { active := [] },
    session_affinity := [((1, 42), 0), ((2, 7), 1)] }

/-- C2: counterexample.  On a pool with one slot and one affinity entry
pointing at it, the invariant holds before shutdown and is violated after:
shutdown clears the slot list but leaves the affinity map, so the entry points
at no existing slot. -/
theorem c2_counterexample :
    ProcessPool.affinity_ok c2_pool = true
    ∧ ProcessPool.affinity_ok (ProcessPool.shutdown c2_pool) = false := by
  decide

/-- C2 (amended): after acquire, release, release_and_dequeue and a reaper
pass return, every session-affinity entry points at a slot present in the
pool's slot list; in particular, releasing a crashed slot erases every
affinity entry pointing at it.  Shutdown is excluded: it clears the slot list
without clearing the affinity map. -/
theorem c2_affinity_invariant_preserved (s : PoolState) (slot : ProcessSlot)
    (thread_id user_id : Nat) (now : Int) (spawn_ok : Bool) (sess : Option String)
    (tid : Option Nat) (h : ProcessPool.affinity_ok s = true) :
    ProcessPool.affinity_ok (ProcessPool.acquire s thread_id user_id now spawn_ok).2 = true
    ∧ ProcessPool.affinity_ok (ProcessPool.release s slot sess tid now) = true
    ∧ ProcessPool.affinity_ok (ProcessPool.release_and_dequeue s slot sess tid now).2 = true
    ∧ ProcessPool.affinity_ok (ProcessPool.reaper_pass s now) = true
    ∧ (slot.client = some false → slot ∈ s.slots →
        (ProcessPool.release s slot sess tid now).session_affinity.all
          (fun e => ¬ (e.2 == slot.slot_id)) = true) := by
  refine ⟨ProcessPool.acquire_preserves s thread_id user_id now spawn_ok h,
    ProcessPool.release_preserves s slot sess tid now h,
    ProcessPool.release_and_dequeue_preserves s slot sess tid now h,
    ProcessPool.reaper_pass_preserves s now h,
    fun hdead hmem => ?_⟩
  unfold ProcessPool.release ProcessPool.release_inner
  rw [if_neg (not_not_intro (List.elem_eq_true_of_mem hmem))]
  rw [if_pos (show (slot.client == none || slot.client == some false) = true by
    rw [hdead]; decide)]
  rw [List.all_eq_true]
  intro e he
  exact (List.mem_filter.mp he).2

/-- C2 witness: the invariant-preservation theorem applied to a concrete pool
holding a live slot and a crashed slot. -/
theorem c2_witness :
    ProcessPool.affinity_ok (ProcessPool.acquire c2_pool2 42 1 5 true).2 = true
    ∧ ProcessPool.affinity_ok
        (ProcessPool.release c2_pool2 c2_dead_slot (some "sid") (some 7) 5) = true
    ∧ ProcessPool.affinity_ok
        (ProcessPool.release_and_dequeue c2_pool2 c2_dead_slot (some "sid")
          (some 7) 5).2 = true
    ∧ ProcessPool.affinity_ok (ProcessPool.reaper_pass c2_pool2 5) = true
    ∧ (ProcessPool.release c2_pool2 c2_dead_slot (some "sid")
        (some 7) 5).session_affinity.all
          (fun e => ¬ (e.2 == c2_dead_slot.slot_id)) = true := by
  have happ := c2_affinity_invariant_preserved c2_pool2 c2_dead_slot 42 1 5 true
    (some "sid") (some 7) (by decide)
  exact ⟨happ.1, happ.2.1, happ.2.2.1, happ.2.2.2.1,
    happ.2.2.2.2 (by decide) (by decide)⟩

/-- C3: counterexample.  A slot bound to user 3 releases while the queue
holds threads [1, 2] of users 1 and 2.  The FIFO fallback dequeues thread 1,
sees the user mismatch, re-enqueues it — which appends at the TAIL — and
returns (none, none): the queue order changes from [1, 2] to [2, 1],
contradicting the claim that the queue's order is unchanged. -/
theorem c3_counterexample :
    c3_pool.request_queue.order = [1, 2]
    ∧ (ProcessPool.release_and_dequeue c3_pool c3_slot (some "sid") (some 99) 5).1
        = (none, none)
    ∧ (ProcessPool.release_and_dequeue c3_pool c3_slot (some "sid")
        (some 99) 5).2.request_queue.order = [2, 1] := by
  decide

/-- C3 witness: the amended FIFO put-back theorem applied to the concrete
two-request pool. -/
theorem c3_witness :
    (ProcessPool.release_and_dequeue c3_pool c3_slot (some "sid") (some 99) 5).1
      = (none, none)
    ∧ (ProcessPool.release_and_dequeue c3_pool c3_slot (some "sid")
        (some 99) 5).2.request_queue.order = [2] ++ [1] :=
  ProcessPool.c3_fifo_putback_tail c3_pool c3_slot (some "sid") 99 5 3
    (sampleRequest 1 1) [2] (by decide) (by decide) (by decide) (by decide) (by decide)
    (by decide) (by decide) (by decide)

/-- C9 witness: the handoff theorem applied to a concrete pool with one
queued affinity successor, plus a concrete unrelated acquire that cannot claim
the slot. -/
theorem c9_witness :
    (ProcessPool.release_and_dequeue c9_pool c3_slot (some "sid") (some 99) 5).1
      = (some (sampleRequest 7 3), some 0)
    ∧ (ProcessPool.acquire
        (ProcessPool.release_and_dequeue c9_pool c3_slot (some "sid") (some 99) 5).2
        50 4 6 true).1 ≠ some 0 :=
  ⟨(ProcessPool.c9_affinity_handoff c9_pool c3_slot (some "sid") (some 99) 5
      ((3, 7), 0) (sampleRequest 7 3) (by decide) (by decide) (by decide) (by decide)
      (by decide)).1,
   (ProcessPool.c9_affinity_handoff c9_pool c3_slot (some "sid") (some 99) 5
      ((3, 7), 0) (sampleRequest 7 3) (by decide) (by decide) (by decide) (by decide)
      (by decide)).2 50 4 6 true⟩
